import Mathlib

/-!
# Task mutation and authorization pipeline

A shallow embedding of the task-management application: the backend files
`controllers/taskController.js`, `middleware/roleCheck.js`, `routes/taskRoutes.js`
and `socket/socketHandler.js`, and the task list of the client in
`frontend/src/context/TaskContext.jsx`.

Conventions of the embedding.

* Object ids are kept in the store as their canonical hexadecimal strings (lower
  case); `a.toString() === b.toString()` in the source is string equality here.
  A string of a request that is written to or compared with a path of type
  ObjectId is cast first: `canonicalId` for a string the validation has accepted,
  `castObjectId` for a string of the query or the route parameter of `getTask`,
  where a failing cast makes the query throw and the handler answer 500.
* The route parameter `Req.id` of the handlers that write is the ObjectId the
  parameter denotes, in its canonical spelling.  A parameter the store cannot
  cast makes `Task.findById` throw before any write; that path of the handlers
  that write is outside the model.
* A request body is a JSON object.  The seven keys the controllers read are
  optional fields (`none` is JavaScript's `undefined`, a key that is absent);
  every further key of the body is recorded by name in `others`.  String
  valued fields are strings, `tags` is a list of strings.
* `new Date()` is the field `now` of the request environment, a natural
  number.
* The document store, the activity log collection and the socket broadcast
  channel form the explicit state `World`; a handler maps a world and a
  request to a new world and a response.
* Failures of the store itself (a write that throws, a document the schema
  rejects when it is saved) are outside the model, except for the activity log
  write, whose failure `createActivityLog` catches, and for `Task.create`.
* The readers take the query engine of the store as a parameter (`Engine`): its
  regular expression test and its sort.  References to users resolve, so
  `populate` is not modelled.
* The socket server is the state `SocketServer`; a handler maps a state, the
  sending socket and a message to a new state and the deliveries it causes.
-/

namespace Collab

/-! ## Data model -/

/-- The authenticated principal attached to a request (`req.user`). -/
structure User where
  _id : String
  role : String
deriving DecidableEq, Repr

/-- A Task document. -/
structure Task where
  _id : String
  title : String
  description : String
  status : String
  priority : String
  dueDate : Option String
  assignedTo : String
  createdBy : String
  tags : List String
  completedAt : Option Nat
  createdAt : Nat
deriving DecidableEq, Repr

/-- The parsed JSON body of a request (`req.body`). -/
structure Body where
  title : Option String := none
  description : Option String := none
  status : Option String := none
  priority : Option String := none
  dueDate : Option String := none
  assignedTo : Option String := none
  tags : Option (List String) := none
  others : List String := []
deriving DecidableEq, Repr

/-- The value of `Object.keys(req.body)`. -/
def Body.keys (b : Body) : List String :=
  (if b.title.isSome then ["title"] else []) ++
  (if b.description.isSome then ["description"] else []) ++
  (if b.status.isSome then ["status"] else []) ++
  (if b.priority.isSome then ["priority"] else []) ++
  (if b.dueDate.isSome then ["dueDate"] else []) ++
  (if b.assignedTo.isSome then ["assignedTo"] else []) ++
  (if b.tags.isSome then ["tags"] else []) ++
  b.others

/-- The `Mixed` values stored as `previousValue` and `newValue` of a log entry. -/
inductive Snapshot where
  | null
  | full (task : Task)
  | status (status : String)
deriving DecidableEq, Repr

/-- An ActivityLog document (`models/ActivityLog.js`). -/
structure ActivityLog where
  action : String
  taskId : String
  taskTitle : String
  performedBy : String
  previousValue : Snapshot
  newValue : Snapshot
  details : String
  ipAddress : String
deriving DecidableEq, Repr

/-- The events emitted with `req.io.emit`. -/
inductive Event where
  | taskCreated (task : Task)
  | taskUpdated (task : Task)
  | taskStatusUpdated (taskId : String) (status : String)
  | taskDeleted (taskId : String)
deriving DecidableEq, Repr

/-- The persistent state: Task collection, ActivityLog collection (oldest
entry first) and the events broadcast so far (oldest first). -/
structure World where
  tasks : List Task
  logs : List ActivityLog
  events : List Event
deriving DecidableEq, Repr

/-- The answer of a handler: `res.status(code).json(...)`. -/
structure Response where
  status : Nat
  message : String := ""
  errors : List String := []
  task : Option Task := none
deriving DecidableEq, Repr

/-- A request together with the environment of its handling. -/
structure Req where
  /-- The principal set by the authentication middleware: `req.user`. -/
  user : User
  /-- The route parameter `req.params.id`, an ObjectId in its canonical spelling. -/
  id : String := ""
  body : Body := {}
  /-- The origin address `req.ip`. -/
  ip : String := ""
  /-- Whether `req.io` is set. -/
  io : Bool := true
  /-- The value of `new Date()` while the request is handled. -/
  now : Nat := 0
  /-- Whether `ActivityLog.create` throws during this request. -/
  logFails : Bool := false
  /-- The `_id` the store gives to a document created by this request. -/
  freshId : String := ""
  /-- Whether `taskCreationLimiter` has run out for the origin of this request. -/
  limited : Bool := false
deriving DecidableEq, Repr

/-! ## The document store -/

/-- The value of `Task.findById(id)` for an ObjectId `id` in its canonical spelling. -/
def findById (tasks : List Task) (id : String) : Option Task :=
  tasks.find? (fun t => t._id == id)

/-- The effect of `task.save()` on an existing document: it replaces the stored
document of the same `_id`. -/
def save (tasks : List Task) (task : Task) : List Task :=
  tasks.map (fun t => if t._id == task._id then task else t)

/-- The effect of `Task.findByIdAndDelete(id)`. -/
def findByIdAndDelete (tasks : List Task) (id : String) : List Task :=
  tasks.eraseP (fun t => t._id == id)

/-- The spelling in which the store keeps and prints an ObjectId: a value given as
hexadecimal digits in upper case is cast to the same id, whose string has them in lower
case. -/
def canonicalId (s : String) : String :=
  String.mk (s.data.map Char.toLower)

/-- JavaScript truthiness of a possibly absent string: `undefined` and `''`
are falsy. -/
def truthy (s : Option String) : Bool :=
  match s with
  | none => false
  | some v => v != ""

/-! ## controllers/taskController.js -/

/-- The helper `createActivityLog`: appends one entry, and swallows a failure of
`ActivityLog.create`. -/
def createActivityLog (logs : List ActivityLog) (fails : Bool) (action : String) (task : Task)
    (userId : String) (previousValue newValue : Snapshot) (details ip : String) :
    List ActivityLog :=
  if fails then logs
  else logs ++ [{ action := action, taskId := task._id, taskTitle := task.title,
                  performedBy := userId, previousValue := previousValue,
                  newValue := newValue, details := details, ipAddress := ip }]

/-- The value of `req.io.emit(event)` guarded by `if (req.io)`. -/
def emit (events : List Event) (io : Bool) (e : Event) : List Event :=
  if io then events ++ [e] else events

/-- The loop over `allowedUpdates` in `updateTask`: every listed field that is not
`undefined` in the body is copied into the task.  `assignedTo` is a path of type
ObjectId, so the document keeps the id the string of the body is cast to. -/
def mergeAllowed (task : Task) (b : Body) : Task :=
  { task with
    title := b.title.getD task.title
    description := b.description.getD task.description
    status := b.status.getD task.status
    priority := b.priority.getD task.priority
    dueDate := match b.dueDate with
      | some d => some d
      | none => task.dueDate
    assignedTo := (b.assignedTo.map canonicalId).getD task.assignedTo
    tags := b.tags.getD task.tags }

/-- The recomputation of `completedAt` in `updateTask` (lines 343-348). -/
def recomputeCompletedAt (task : Task) (bodyStatus : Option String) (previousStatus : String)
    (now : Nat) : Task :=
  if bodyStatus == some "completed" && previousStatus != "completed" then
    { task with completedAt := some now }
  else if bodyStatus != some "completed" then
    { task with completedAt := none }
  else task

/-- The classification of the logged action in `updateTask` (lines 358-365). -/
def updateAction (b : Body) (previousTask : Task) : String :=
  let action := "updated"
  let action :=
    if truthy b.status && b.status != some previousTask.status then
      (if b.status == some "completed" then "completed" else "status_changed")
    else action
  if truthy b.assignedTo && b.assignedTo != some previousTask.assignedTo then "assigned"
  else action

/-- The controller `updateTask`; `errors` is `validationResult(req)`. -/
def updateTask (w : World) (req : Req) (errors : List String) : World × Response :=
  if !errors.isEmpty then (w, { status := 400, errors := errors })
  else
    match findById w.tasks req.id with
    | none => (w, { status := 404, message := "Task not found" })
    | some task =>
      let isCreator := task.createdBy == req.user._id
      let isAssignee := task.assignedTo == req.user._id
      let isManager := req.user.role == "manager"
      if !isManager && !isCreator && isAssignee
          && req.body.keys.any (fun key => key != "status") then
        (w, { status := 403, message := "You can only update the task status" })
      else
        let previousTask := task
        let task := mergeAllowed task req.body
        let task := recomputeCompletedAt task req.body.status previousTask.status req.now
        let tasks := save w.tasks task
        let action := updateAction req.body previousTask
        let logs := createActivityLog w.logs req.logFails action task req.user._id
          (Snapshot.full previousTask) (Snapshot.full task)
          ("Task \"" ++ task.title ++ "\" was " ++ action) req.ip
        let events := emit w.events req.io (Event.taskUpdated task)
        ({ tasks := tasks, logs := logs, events := events },
         { status := 200, message := "Task updated successfully", task := some task })

/-- The four values of the status enum. -/
def statusValues : List String := ["todo", "in-progress", "review", "completed"]

/-- The four values of the priority enum. -/
def priorityValues : List String := ["low", "medium", "high", "urgent"]

/-- The controller `updateTaskStatus`. -/
def updateTaskStatus (w : World) (req : Req) : World × Response :=
  match req.body.status with
  | none => (w, { status := 400, message := "Invalid status value" })
  | some status =>
    if !statusValues.contains status then
      (w, { status := 400, message := "Invalid status value" })
    else
      match findById w.tasks req.id with
      | none => (w, { status := 404, message := "Task not found" })
      | some task =>
        let isAssignee := task.assignedTo == req.user._id
        let isManager := req.user.role == "manager"
        if !isAssignee && !isManager then
          (w, { status := 403, message := "Not authorized to update this task status" })
        else
          let previousStatus := task.status
          let task := { task with status := status }
          let task :=
            if status == "completed" then { task with completedAt := some req.now }
            else { task with completedAt := none }
          let tasks := save w.tasks task
          let logs := createActivityLog w.logs req.logFails
            (if status == "completed" then "completed" else "status_changed")
            task req.user._id (Snapshot.status previousStatus) (Snapshot.status status)
            ("Task status changed from \"" ++ previousStatus ++ "\" to \"" ++ status ++ "\"")
            req.ip
          let events := emit w.events req.io (Event.taskStatusUpdated task._id status)
          ({ tasks := tasks, logs := logs, events := events },
           { status := 200, message := "Task status updated successfully", task := some task })

/-- Modelled from the spec: the Task schema of `models/Task.js`, which is not among
the sources.  `title`, `description` and `assignedTo` are required, `completedAt`
is optional and has no default, `_id` and `createdAt` are given by the store,
`assignedTo` is a reference and holds the id its string is cast to.
The value of `Task.create(doc)`; `none` stands for a document the schema rejects. -/
def taskCreate (id : String) (now : Nat) (title description : Option String)
    (status priority : String) (dueDate assignedTo : Option String) (createdBy : String)
    (tags : List String) : Option Task :=
  match title, description, assignedTo with
  | some title, some description, some assignedTo =>
    some { _id := id, title := title, description := description, status := status,
           priority := priority, dueDate := dueDate, assignedTo := canonicalId assignedTo,
           createdBy := createdBy, tags := tags, completedAt := none, createdAt := now }
  | _, _, _ => none

/-- The controller `createTask`; `errors` is `validationResult(req)`. -/
def createTask (w : World) (req : Req) (errors : List String) : World × Response :=
  if !errors.isEmpty then (w, { status := 400, errors := errors })
  else
    let b := req.body
    match taskCreate req.freshId req.now b.title b.description
        (if truthy b.status then b.status.getD "todo" else "todo")
        (if truthy b.priority then b.priority.getD "medium" else "medium")
        b.dueDate b.assignedTo req.user._id (b.tags.getD []) with
    | none => (w, { status := 500, message := "Error creating task" })
    | some task =>
      let logs := createActivityLog w.logs req.logFails "created" task req.user._id
        Snapshot.null (Snapshot.full task) ("Task \"" ++ task.title ++ "\" was created") req.ip
      let events := emit w.events req.io (Event.taskCreated task)
      ({ tasks := w.tasks ++ [task], logs := logs, events := events },
       { status := 201, message := "Task created successfully", task := some task })

/-- The controller `deleteTask`. -/
def deleteTask (w : World) (req : Req) : World × Response :=
  match findById w.tasks req.id with
  | none => (w, { status := 404, message := "Task not found" })
  | some task =>
    if task.createdBy != req.user._id && req.user.role != "manager" then
      (w, { status := 403, message := "Not authorized to delete this task" })
    else
      let logs := createActivityLog w.logs req.logFails "deleted" task req.user._id
        (Snapshot.full task) Snapshot.null ("Task \"" ++ task.title ++ "\" was deleted") req.ip
      let tasks := findByIdAndDelete w.tasks req.id
      let events := emit w.events req.io (Event.taskDeleted req.id)
      ({ tasks := tasks, logs := logs, events := events },
       { status := 200, message := "Task deleted successfully" })

/-! ## middleware/roleCheck.js -/

/-- The guard `authorize(...roles)`: `none` means that `next()` is called, `some r`
that the guard answers `r` itself. -/
def authorize (roles : List String) (user : Option User) : Option Response :=
  match user with
  | none => some { status := 401, message := "Not authorized" }
  | some u =>
    if !roles.contains u.role then
      some { status := 403,
             message :=
               "User role \x27" ++ u.role ++ "\x27 is not authorized to access this route" }
    else none

/-! ## routes/taskRoutes.js -/

/-- A hexadecimal digit. -/
def isHexDigit (c : Char) : Bool :=
  c.isDigit || ('a' ≤ c && c ≤ 'f') || ('A' ≤ c && c ≤ 'F')

/-- The check `isMongoId`: 24 hexadecimal digits. -/
def isMongoId (s : String) : Bool :=
  s.length == 24 && s.data.all isHexDigit

/-- The characters of the class `\\s` of a JavaScript regular expression. -/
def isSpace (c : Char) : Bool :=
  let n := c.toNat
  n == 0x20 || (0x09 ≤ n && n ≤ 0x0D) || n == 0xA0 || n == 0x1680
    || (0x2000 ≤ n && n ≤ 0x200A) || n == 0x2028 || n == 0x2029 || n == 0x202F
    || n == 0x205F || n == 0x3000 || n == 0xFEFF

/-- The sanitizer `trim`: white space is removed at both ends. -/
def trim (s : String) : String :=
  String.mk (((s.data.dropWhile isSpace).reverse.dropWhile isSpace).reverse)

/-- The validation chains `taskValidation`, as the list of the messages of the
checks that fail.  A chain with `.optional()` is skipped for a key that is
absent.  The date check of the validation library is the parameter `isISO8601`. -/
def taskValidation (isISO8601 : String → Bool) (b : Body) : List String :=
  let title := trim (b.title.getD "")
  let description := trim (b.description.getD "")
  let assignedTo := b.assignedTo.getD ""
  (if title.length == 0 then ["Title is required"] else []) ++
  (if title.length > 100 then ["Title cannot be more than 100 characters"] else []) ++
  (if description.length == 0 then ["Description is required"] else []) ++
  (if description.length > 1000 then ["Description cannot be more than 1000 characters"]
   else []) ++
  (match b.status with
   | none => []
   | some s => if statusValues.contains s then [] else ["Invalid status"]) ++
  (match b.priority with
   | none => []
   | some p => if priorityValues.contains p then [] else ["Invalid priority"]) ++
  (if assignedTo.length == 0 then ["Assignee is required"] else []) ++
  (if isMongoId assignedTo then [] else ["Invalid assignee ID"]) ++
  (match b.dueDate with
   | none => []
   | some d => if isISO8601 d then [] else ["Invalid date format"])

/-- The body after the sanitizers of `taskValidation` have run: `title` and
`description` are trimmed in place. -/
def sanitize (b : Body) : Body :=
  { b with title := b.title.map trim, description := b.description.map trim }

/-- The route `PUT /:id`: `taskValidation`, then `updateTask`. -/
def routePut (isISO8601 : String → Bool) (w : World) (req : Req) : World × Response :=
  updateTask w { req with body := sanitize req.body } (taskValidation isISO8601 req.body)

/-- The route `PATCH /:id/status`: `updateTaskStatus`. -/
def routePatchStatus (w : World) (req : Req) : World × Response :=
  updateTaskStatus w req

/-- The route `DELETE /:id`: `authorize(\x27manager\x27)`, then `deleteTask`. -/
def routeDelete (w : World) (req : Req) : World × Response :=
  match authorize ["manager"] (some req.user) with
  | some r => (w, r)
  | none => deleteTask w req

/-- The route `POST /`: `authorize(\x27manager\x27)`, `taskCreationLimiter`, `taskValidation`,
then `createTask`. -/
def routePost (isISO8601 : String → Bool) (w : World) (req : Req) : World × Response :=
  match authorize ["manager"] (some req.user) with
  | some r => (w, r)
  | none =>
    if req.limited then
      (w, { status := 429, message := "Too many tasks created, please try again later" })
    else
      createTask w { req with body := sanitize req.body } (taskValidation isISO8601 req.body)

/-! ## The readers of controllers/taskController.js -/

/-- The query engine of the document store, taken as a parameter: the test of a
`$regex` pattern with option `i` (`none` for a pattern the store rejects, which makes
the query throw), and the `sort` of a result by a field name and a direction (`true` is
descending), which returns the documents it is given in some order. -/
structure Engine where
  regex : String → Option (String → Bool)
  sort : String → Bool → List Task → List Task
  sort_perm : ∀ (field : String) (desc : Bool) (l : List Task), (sort field desc l).Perm l

/-- The query string of a request (`req.query`); `page` and `limit` are the values of
`parseInt`, natural numbers. -/
structure Query where
  page : Option Nat := none
  limit : Option Nat := none
  status : Option String := none
  priority : Option String := none
  search : Option String := none
  sortBy : Option String := none
  sortOrder : Option String := none
  assignedTo : Option String := none
  createdBy : Option String := none
  taskId : Option String := none
deriving DecidableEq, Repr

/-- The answer of a paginated reader.  `totalPages` is `none` when `Math.ceil` does not
give a number (a limit of 0). -/
structure Page (α : Type) where
  status : Nat
  message : String := ""
  count : Nat := 0
  total : Nat := 0
  totalPages : Option Nat := none
  currentPage : Nat := 0
  items : List α := []
deriving DecidableEq, Repr

/-- The query object the task readers build. -/
structure Filter where
  assignedTo : Option String := none
  createdBy : Option String := none
  status : Option String := none
  priority : Option String := none
  search : Option String := none
deriving DecidableEq, Repr

/-- A query parameter that is set when it is truthy: `if (x) query.x = x`. -/
def whenTruthy (s : Option String) : Option String :=
  if truthy s then s else none

/-- The equality conditions of a query object on one task. -/
def Filter.base (f : Filter) (t : Task) : Bool :=
  (match f.assignedTo with
   | none => true
   | some a => t.assignedTo == a) &&
  (match f.createdBy with
   | none => true
   | some c => t.createdBy == c) &&
  (match f.status with
   | none => true
   | some s => t.status == s) &&
  (match f.priority with
   | none => true
   | some p => t.priority == p)

/-- The predicate a query object stands for; `none` when its `$regex` pattern is
rejected.  The search is the `$or` of the pattern on the title and on the description. -/
def Filter.pred (e : Engine) (f : Filter) : Option (Task → Bool) :=
  match f.search with
  | none => some (fun t => f.base t)
  | some s =>
    match e.regex s with
    | none => none
    | some m => some (fun t => f.base t && (m t.title || m t.description))

/-- The page cut out of the sorted matching documents: `.skip(skip).limit(limit)` with
`skip = (page - 1) * limit`, and the numbers reported with it.  A negative skip is
rejected by the store, a limit of 0 is no limit. -/
def paginate {α : Type} (failure : String) (sorted : List α) (total page limit : Nat) :
    Page α :=
  if page = 0 ∧ limit ≠ 0 then { status := 500, message := failure }
  else
    let skip := (page - 1) * limit
    let items := if limit = 0 then sorted.drop skip else (sorted.drop skip).take limit
    { status := 200, count := items.length, total := total,
      totalPages := if limit = 0 then none else some ((total + limit - 1) / limit),
      currentPage := page, items := items }

/-- The cast of a string to an ObjectId, which the store applies to the value a query
compares with a path of that type and to the argument of `findById`: 24 hexadecimal
digits are the id with that canonical spelling, and a string that is no id is a CastError
(`none`), which makes the query throw.  Only the ids of 24 hexadecimal digits are taken as
ids here (a driver that also reads 12 bytes as an id is not modelled). -/
def castObjectId (s : String) : Option String :=
  if isMongoId s then some (canonicalId s) else none

/-- An id condition of a query object that is set when the parameter is truthy,
`if (x) query.x = x`, as the query casts it: `some none` when the condition is not set,
`none` when the cast of the string fails. -/
def castWhenTruthy (s : Option String) : Option (Option String) :=
  match whenTruthy s with
  | none => some none
  | some v => (castObjectId v).map some

/-- The query object of `getTasks` (lines 41-70) as `Task.find` reads it: `assignedTo`
and `createdBy` are paths of type ObjectId, so the strings a manager supplies for them
are cast, and the result is `none` when a cast fails.  `req.user._id` is an ObjectId
already. -/
def getTasksFilter (user : User) (q : Query) : Option Filter :=
  if user.role == "user" then
    some { assignedTo := some user._id, status := whenTruthy q.status,
           priority := whenTruthy q.priority, search := whenTruthy q.search }
  else if user.role == "manager" then
    match castWhenTruthy q.assignedTo, castWhenTruthy q.createdBy with
    | some a, some c =>
      some { assignedTo := a, createdBy := c, status := whenTruthy q.status,
             priority := whenTruthy q.priority, search := whenTruthy q.search }
    | _, _ => none
  else
    some { status := whenTruthy q.status, priority := whenTruthy q.priority,
           search := whenTruthy q.search }

/-- The predicate the query of `getTasks` stands for; `none` when the store rejects the
query, for an id it cannot cast or for its `$regex` pattern. -/
def getTasksPred (e : Engine) (user : User) (q : Query) : Option (Task → Bool) :=
  (getTasksFilter user q).bind (fun f => f.pred e)

/-- The controller `getTasks` for the principal `user` and the query string `q`.  A query
that throws is answered by the `catch` block. -/
def getTasks (e : Engine) (w : World) (user : User) (q : Query) : Page Task :=
  match getTasksPred e user q with
  | none => { status := 500, message := "Error fetching tasks" }
  | some p =>
    paginate "Error fetching tasks"
      (e.sort (q.sortBy.getD "createdAt") (q.sortOrder.getD "desc" == "desc") (w.tasks.filter p))
      (w.tasks.filter p).length (q.page.getD 1) (q.limit.getD 10)

/-- The query object of `getMyTasks`. -/
def myTasksFilter (user : User) (q : Query) : Filter :=
  { assignedTo := some user._id, status := whenTruthy q.status,
    priority := whenTruthy q.priority }

/-- The query object of `getCreatedTasks`. -/
def createdTasksFilter (user : User) (q : Query) : Filter :=
  { createdBy := some user._id, status := whenTruthy q.status,
    priority := whenTruthy q.priority }

/-- The controller `getMyTasks`. -/
def getMyTasks (e : Engine) (w : World) (user : User) (q : Query) : Page Task :=
  let f := myTasksFilter user q
  paginate "Error fetching your tasks" (e.sort "createdAt" true (w.tasks.filter f.base))
    (w.tasks.filter f.base).length (q.page.getD 1) (q.limit.getD 10)

/-- The controller `getCreatedTasks`. -/
def getCreatedTasks (e : Engine) (w : World) (user : User) (q : Query) : Page Task :=
  let f := createdTasksFilter user q
  paginate "Error fetching created tasks" (e.sort "createdAt" true (w.tasks.filter f.base))
    (w.tasks.filter f.base).length (q.page.getD 1) (q.limit.getD 10)

/-- The predicate of the query object of `getActivityLogs` (lines 613-623) as
`ActivityLog.find` reads it.  For the role user the condition on `taskId` is the `$in` of
the ids of the tasks assigned to the principal, which replaces a `taskId` of the query
string.  For another role a truthy `taskId` of the query string is cast to the ObjectId
the path `taskId` holds; the result is `none` when the cast fails. -/
def activityLogsPred (w : World) (user : User) (q : Query) : Option (ActivityLog → Bool) :=
  if user.role == "user" then
    some (fun l =>
      ((w.tasks.filter (fun t => t.assignedTo == user._id)).map (fun t => t._id)).contains
        l.taskId)
  else
    match castWhenTruthy q.taskId with
    | none => none
    | some none => some (fun _ => true)
    | some (some id) => some (fun l => l.taskId == id)

/-- The controller `getActivityLogs`.  The log is kept oldest entry first, so the sort
by `createdAt` descending is its reverse.  A query that throws is answered by the `catch`
block. -/
def getActivityLogs (w : World) (user : User) (q : Query) : Page ActivityLog :=
  match activityLogsPred w user q with
  | none => { status := 500, message := "Error fetching activity logs" }
  | some p =>
    paginate "Error fetching activity logs" (w.logs.filter p).reverse
      (w.logs.filter p).length (q.page.getD 1) (q.limit.getD 20)

/-- The answer of `getTask`. -/
structure TaskView where
  status : Nat
  message : String := ""
  task : Option Task := none
  activityLogs : List ActivityLog := []
deriving DecidableEq, Repr

/-- The controller `getTask` for the principal `user` and the route parameter `id`, a
string of the request.  `Task.findById` casts it to an ObjectId; when the cast fails the
query throws and the `catch` block answers. -/
def getTask (w : World) (user : User) (id : String) : TaskView :=
  match castObjectId id with
  | none => { status := 500, message := "Error fetching task" }
  | some oid =>
    match findById w.tasks oid with
    | none => { status := 404, message := "Task not found" }
    | some task =>
      let isCreator := task.createdBy == user._id
      let isAssignee := task.assignedTo == user._id
      let isManager := user.role == "manager"
      if !isCreator && !isAssignee && !isManager then
        { status := 403, message := "Not authorized to view this task" }
      else
        { status := 200, task := some task,
          activityLogs := ((w.logs.filter (fun l => l.taskId == task._id)).reverse).take 20 }

/-- The `$match` stage of `getTaskStats`. -/
def statsScope (user : User) (t : Task) : Bool :=
  if user.role == "user" then t.assignedTo == user._id
  else if user.role == "manager" then t.createdBy == user._id
  else true

/-- The `$group` stage with `$sum: 1`: one pair of a value and its number of
occurrences for every value that occurs. -/
def groupCount (values : List String) : List (String × Nat) :=
  values.dedup.map (fun v => (v, values.count v))

/-- The assignment `counts[key] = value` on an object kept as a list of its entries. -/
def setKey (counts : List (String × Nat)) (key : String) (value : Nat) : List (String × Nat) :=
  if counts.any (fun p => p.1 == key) then
    counts.map (fun p => if p.1 == key then (p.1, value) else p)
  else counts ++ [(key, value)]

/-- The loop `stats.forEach(stat => counts[stat._id] = stat.count)` over the groups. -/
def fillCounts (init : List (String × Nat)) (groups : List (String × Nat)) :
    List (String × Nat) :=
  groups.foldl (fun counts g => setKey counts g.1 g.2) init

/-- The answer of `getTaskStats`. -/
structure Stats where
  total : Nat
  byStatus : List (String × Nat)
  byPriority : List (String × Nat)
deriving DecidableEq, Repr

/-- The controller `getTaskStats`. -/
def getTaskStats (w : World) (user : User) : Stats :=
  let matched := w.tasks.filter (statsScope user)
  let statusCounts := fillCounts [("todo", 0), ("in-progress", 0), ("review", 0), ("completed", 0)]
    (groupCount (matched.map (fun t => t.status)))
  let priorityCounts := fillCounts [("low", 0), ("medium", 0), ("high", 0), ("urgent", 0)]
    (groupCount (matched.map (fun t => t.priority)))
  { total := (statusCounts.map (fun p => p.2)).foldl (fun a b => a + b) 0,
    byStatus := statusCounts, byPriority := priorityCounts }

/-! ## Properties -/

/-- The classification of the logged action of an update in the words of the
specification: `assigned` if the assignee changed, else `completed` if the status
became `completed`, else `status_changed` if the status changed, else `updated`. -/
def classifySpec (assignedChanged statusChanged : Bool) (newStatus : String) : String :=
  if assignedChanged then "assigned"
  else if statusChanged && newStatus == "completed" then "completed"
  else if statusChanged then "status_changed"
  else "updated"

/-- A field of an updated document takes the value of the body when the key is
present, and keeps its previous value otherwise. -/
def takes {α : Type} (bodyValue : Option α) (previous updated : α) : Prop :=
  match bodyValue with
  | some v => updated = v
  | none => updated = previous

/-- The document `updateTask` stores when it accepts a request. -/
def updatedTask (task : Task) (req : Req) : Task :=
  recomputeCompletedAt (mergeAllowed task req.body) req.body.status task.status req.now

/-- The invariant of the data model: `completedAt` is set exactly when the status
is `completed`. -/
def completedInv (t : Task) : Prop :=
  t.completedAt.isSome = true ↔ t.status = "completed"

instance (t : Task) : Decidable (completedInv t) := by
  unfold completedInv; infer_instance

/-! ## Sample data -/

/-- The `_id` of the sample task `exTask`. -/
def exTaskId : String := "111111111111111111111111"

/-- The `_id` of the sample task `exDoneTask`. -/
def exDoneTaskId : String := "222222222222222222222222"

/-- The `_id` of the sample task `exOwnTask`. -/
def exOwnTaskId : String := "333333333333333333333333"

/-- The `_id` the store gives to the task created in the samples. -/
def exFreshId : String := "999999999999999999999999"

/-- A manager, the creator of the sample tasks. -/
def exManager : User := { _id := "bbbbbbbbbbbbbbbbbbbbbbbb", role := "manager" }

/-- A plain user, the assignee of the sample tasks. -/
def exAssignee : User := { _id := "aaaaaaaaaaaaaaaaaaaaaaaa", role := "user" }

/-- A plain user who neither created the sample tasks nor is assigned to them. -/
def exStranger : User := { _id := "cccccccccccccccccccccccc", role := "user" }

/-- A plain user who is the creator of `exOwnTask`. -/
def exOwner : User := { _id := "dddddddddddddddddddddddd", role := "user" }

/-- A task in progress, created by `exManager` and assigned to `exAssignee`. -/
def exTask : Task :=
  { _id := exTaskId, title := "Spec", description := "Write design doc", status := "in-progress",
    priority := "medium", dueDate := none, assignedTo := "aaaaaaaaaaaaaaaaaaaaaaaa",
    createdBy := "bbbbbbbbbbbbbbbbbbbbbbbb", tags := [], completedAt := none, createdAt := 1 }

/-- A completed task, completed at time 5. -/
def exDoneTask : Task :=
  { _id := exDoneTaskId, title := "Spec", description := "Write design doc", status := "completed",
    priority := "medium", dueDate := none, assignedTo := "aaaaaaaaaaaaaaaaaaaaaaaa",
    createdBy := "bbbbbbbbbbbbbbbbbbbbbbbb", tags := [], completedAt := some 5, createdAt := 1 }

/-- A task whose creator `exOwner` has role `user`. -/
def exOwnTask : Task :=
  { _id := exOwnTaskId, title := "Own", description := "Owned by a plain user", status := "todo",
    priority := "low", dueDate := none, assignedTo := "aaaaaaaaaaaaaaaaaaaaaaaa",
    createdBy := "dddddddddddddddddddddddd", tags := [], completedAt := none, createdAt := 2 }

/-- A store holding the three sample tasks. -/
def exWorld : World := { tasks := [exTask, exDoneTask, exOwnTask], logs := [], events := [] }

/-- A body that passes `taskValidation` and has no `status` key. -/
def exEditBody : Body :=
  { title := some "Spec v2", description := some "Write design doc",
    assignedTo := some "aaaaaaaaaaaaaaaaaaaaaaaa" }

/-- The assignee moves `exTask` to review through the status route. -/
def exReviewReq : Req := { user := exAssignee, id := exTaskId, body := { status := some "review" } }

/-- A request of `exStranger` on `exTask` with an empty body. -/
def exEmptyReq : Req := { user := exStranger, id := exTaskId }

/-- The store without any document. -/
def exEmptyWorld : World := { tasks := [], logs := [], events := [] }

/-- The plain user `exOwner` asks to delete the task they created. -/
def exOwnerDeleteReq : Req := { user := exOwner, id := exOwnTaskId }

/-- The manager asks to delete `exOwnTask`. -/
def exManagerDeleteReq : Req := { user := exManager, id := exOwnTaskId }

/-- The manager asks to delete `exOwnTask` while the write to the activity log fails. -/
def exManagerDeleteLogFailReq : Req := { user := exManager, id := exOwnTaskId, logFails := true }

/-- The assignee moves `exTask` to review while the write to the activity log fails. -/
def exReviewLogFailReq : Req :=
  { user := exAssignee, id := exTaskId, body := { status := some "review" }, logFails := true }

/-- The manager renames `exTask`; the body also carries a `createdBy` key. -/
def exRenameReq : Req :=
  { user := exManager, id := exTaskId,
    body := { title := some "Spec v2", others := ["createdBy"] } }

/-- The assignee sends the body `{priority: "urgent"}` to the update route. -/
def exPriorityReq : Req :=
  { user := exAssignee, id := exTaskId, body := { priority := some "urgent" } }

/-- A body with the three required keys and a priority outside the enum. -/
def exBadPriorityBody : Body :=
  { title := some "Spec", description := some "Write design doc",
    assignedTo := some "aaaaaaaaaaaaaaaaaaaaaaaa", priority := some "bogus" }

/-- The assignee sends `exBadPriorityBody` to the update route. -/
def exBadPriorityReq : Req := { user := exAssignee, id := exTaskId, body := exBadPriorityBody }

/-- The assignee sends `exEditBody`, which passes the validation, to the update route. -/
def exAssigneeEditReq : Req := { user := exAssignee, id := exTaskId, body := exEditBody }

/-- The manager reassigns `exTask` to `exStranger` and completes it in one request. -/
def exReassignReq : Req :=
  { user := exManager, id := exTaskId, now := 7,
    body := { title := some "Spec", description := some "Write design doc",
              assignedTo := some "cccccccccccccccccccccccc", status := some "completed" } }

/-- The manager sends the three required keys for `exTask`, whose values are the stored
ones; `assignedTo` is the id of the current assignee written with upper-case digits. -/
def exUpperAssigneeReq : Req :=
  { user := exManager, id := exTaskId, now := 7,
    body := { title := some "Spec", description := some "Write design doc",
              assignedTo := some "AAAAAAAAAAAAAAAAAAAAAAAA" } }

/-- The manager sends `exEditBody`, which has no `status` key, for the completed task
`exDoneTask`. -/
def exDoneEditReq : Req := { user := exManager, id := exDoneTaskId, now := 9, body := exEditBody }

/-- The document `exDoneTask` after `exDoneEditReq`. -/
def exDoneEdited : Task := { exDoneTask with title := "Spec v2", completedAt := none }

/-- The manager creates a task whose status is `completed` from the start. -/
def exCreateDoneReq : Req :=
  { user := exManager, now := 9, freshId := exFreshId,
    body := { title := some "Spec", description := some "Write design doc",
              assignedTo := some "aaaaaaaaaaaaaaaaaaaaaaaa", status := some "completed" } }

/-- The manager raises the priority of the completed task `exDoneTask`; the body has no
`status` key. -/
def exDonePriorityReq : Req :=
  { user := exManager, id := exDoneTaskId, now := 9,
    body := { title := some "Spec", description := some "Write design doc",
              assignedTo := some "aaaaaaaaaaaaaaaaaaaaaaaa", priority := some "high" } }

/-- The plain user `exStranger`, neither creator nor assignee of `exTask`, sends
`exEditBody` for it. -/
def exStrangerEditReq : Req := { user := exStranger, id := exTaskId, body := exEditBody }

/-- The assignee sets `exTask` to `completed` through the status route at time `now`. -/
def exCompleteReq (now : Nat) : Req :=
  { user := exAssignee, id := exTaskId, now := now, body := { status := some "completed" } }

/-- The document stored by `exCreateDoneReq`. -/
def exCreatedDone : Task :=
  { _id := exFreshId, title := "Spec", description := "Write design doc", status := "completed",
    priority := "medium", dueDate := none, assignedTo := "aaaaaaaaaaaaaaaaaaaaaaaa",
    createdBy := "bbbbbbbbbbbbbbbbbbbbbbbb", tags := [], completedAt := none, createdAt := 9 }

/-! ## Properties of the readers -/

/-- Whether `p` occurs in `t` as a run of consecutive characters. -/
def isInfixOf (p t : List Char) : Bool :=
  t.tails.any (fun rest => p.isPrefixOf rest)

/-- The search of the specification: `s` occurs in `text` as a substring, letter case
ignored, every character of `s` standing for itself. -/
def containsCI (s text : String) : Bool :=
  isInfixOf (s.data.map Char.toLower) (text.data.map Char.toLower)

/-- A filter of the query string applies to a value when it is supplied (present and
not empty) and then asks for equality. -/
def suppliedMatch (param : Option String) (value : String) : Bool :=
  match param with
  | none => true
  | some s => s == "" || value == s

/-- A filter of the query string on a reference applies to an id when it is supplied
(present and not empty) and then asks for the same id, whatever the letter case in which
its digits are written. -/
def suppliedIdMatch (param : Option String) (value : String) : Bool :=
  match param with
  | none => true
  | some s => s == "" || value == canonicalId s

/-- A filter of the query string on a reference is well formed: it is not supplied, or
it is 24 hexadecimal digits. -/
def wellFormedIdFilter (param : Option String) : Bool :=
  match param with
  | none => true
  | some s => s == "" || isMongoId s

/-- A task matches every supplied filter among status, priority, assignedTo and
createdBy. -/
def matchesSupplied (q : Query) (t : Task) : Bool :=
  suppliedMatch q.status t.status && suppliedMatch q.priority t.priority &&
  suppliedIdMatch q.assignedTo t.assignedTo && suppliedIdMatch q.createdBy t.createdBy

/-- The answer `r` is page number `page` of size `limit` of the list `sorted` of the
sorted matching results: it holds the items at positions `(page - 1) * limit` up to
`page * limit - 1`, and reports the number of results, the number of pages and the page. -/
def IsPageOf {α : Type} (sorted : List α) (page limit : Nat) (r : Page α) : Prop :=
  r.status = 200 ∧
  (∀ i, i < limit → r.items[i]? = sorted[(page - 1) * limit + i]?) ∧
  r.items.length ≤ limit ∧
  r.count = r.items.length ∧
  r.total = sorted.length ∧
  r.totalPages = some ⌈(sorted.length : ℚ) / (limit : ℚ)⌉₊ ∧
  r.currentPage = page

/-- The scope of the statistics in the words of the specification: the tasks assigned
to a principal of role user, the tasks created by a principal of role manager, every
task for any other role. -/
def inScope (user : User) (t : Task) : Bool :=
  (user.role != "user" || t.assignedTo == user._id) &&
  (user.role != "manager" || t.createdBy == user._id)

/-! ## Sample data for the readers -/

/-- The characters with a meaning of their own in a regular expression, the dot apart. -/
def isMeta (c : Char) : Bool :=
  "\\^$*+?()[]|".data.contains c || c == Char.ofNat 123 || c == Char.ofNat 125

/-- Whether a pattern of ordinary characters and dots matches at the start of a text,
letter case ignored; a dot stands for any character but a line feed. -/
def dotMatchAt : List Char → List Char → Bool
  | [], _ => true
  | _ :: _, [] => false
  | p :: ps, c :: cs =>
    (if p == '.' then c != '\n' else p.toLower == c.toLower) && dotMatchAt ps cs

/-- A regular expression test for the patterns made of ordinary characters and dots; it
rejects every other pattern. -/
def dotRegex (pattern : String) : Option (String → Bool) :=
  if pattern.data.any isMeta then none
  else some (fun text => text.data.tails.any (dotMatchAt pattern.data))

/-- A sort by creation time, whatever the field asked for. -/
def sortByCreatedAt (_field : String) (desc : Bool) (l : List Task) : List Task :=
  if desc then l.insertionSort (fun a b => b.createdAt ≤ a.createdAt)
  else l.insertionSort (fun a b => a.createdAt ≤ b.createdAt)

/-- A sample engine of the store. -/
def exEngine : Engine :=
  { regex := dotRegex
    sort := sortByCreatedAt
    sort_perm := by
      intro _ desc l
      unfold sortByCreatedAt
      split
      · exact List.perm_insertionSort _ l
      · exact List.perm_insertionSort _ l }

/-- A task with the title `abc`, created by `exManager` and assigned to `exAssignee`. -/
def exAbcTask : Task :=
  { _id := "444444444444444444444444", title := "abc", description := "letters",
    status := "todo", priority := "high", dueDate := none,
    assignedTo := "aaaaaaaaaaaaaaaaaaaaaaaa", createdBy := "bbbbbbbbbbbbbbbbbbbbbbbb",
    tags := [], completedAt := none, createdAt := 3 }

/-- A store holding four tasks. -/
def exReadWorld : World :=
  { tasks := [exTask, exDoneTask, exOwnTask, exAbcTask], logs := [], events := [] }

/-- The query string `search=a.c`. -/
def exDotQuery : Query := { search := some "a.c" }

/-- The query string `status=completed&priority=medium` on page 1 with limit 10. -/
def exFilterQuery : Query :=
  { status := some "completed", priority := some "medium", page := some 1, limit := some 10 }

/-- The query string `status=completed&priority=medium&assignedTo=AAAAAAAAAAAAAAAAAAAAAAAA`,
without `page` or `limit`: the id of the assignee with upper-case digits. -/
def exScenarioQuery : Query :=
  { status := some "completed", priority := some "medium",
    assignedTo := some "AAAAAAAAAAAAAAAAAAAAAAAA" }

/-- The query string `assignedTo=xyz`. -/
def exBadAssigneeQuery : Query := { assignedTo := some "xyz" }

/-- The query string `taskId=xyz&page=1&limit=10`. -/
def exBadTaskIdQuery : Query := { taskId := some "xyz", page := some 1, limit := some 10 }

/-- The query string `page=2&limit=1`. -/
def exPageQuery : Query := { page := some 2, limit := some 1 }

/-- A valid request of the manager to create a task, with no status, priority or tags. -/
def exCreateReq : Req :=
  { user := exManager, now := 9, freshId := exFreshId,
    body := { title := some "Spec", description := some "Write design doc",
              assignedTo := some "aaaaaaaaaaaaaaaaaaaaaaaa", others := ["createdBy"] } }

/-- The document `createTask` stores for a body with the three required keys. -/
def createdTask (req : Req) (title description assignedTo : String) : Task :=
  { _id := req.freshId, title := title, description := description,
    status := if truthy req.body.status then req.body.status.getD "todo" else "todo",
    priority := if truthy req.body.priority then req.body.priority.getD "medium" else "medium",
    dueDate := req.body.dueDate, assignedTo := canonicalId assignedTo,
    createdBy := req.user._id,
    tags := req.body.tags.getD [], completedAt := none, createdAt := req.now }

/-- The document `updateTaskStatus` stores when it accepts the status `status`. -/
def statusUpdatedTask (task : Task) (status : String) (now : Nat) : Task :=
  if status == "completed" then { { task with status := status } with completedAt := some now }
  else { { task with status := status } with completedAt := none }

/-- The log of the second state extends the log of the first by at most one entry at its
end. -/
def ExtendsByAtMostOne (before after : List ActivityLog) : Prop :=
  ∃ suffix : List ActivityLog, after = before ++ suffix ∧ suffix.length ≤ 1

/-! ## socket/socketHandler.js -/

/-- A connected socket: its id and the user the handshake authenticated (`socket.user`). -/
structure Socket where
  id : String
  userId : String
  userName : String
  role : String
deriving DecidableEq, Repr

/-- The messages a client sends over its socket. -/
inductive ClientMessage where
  | joinTask (taskId : String)
  | leaveTask (taskId : String)
  | updateTaskStatus (taskId : String) (status : String)
  | typing (taskId : String)
  | stopTyping (taskId : String)
deriving DecidableEq, Repr

/-- The events the socket handlers send to clients. -/
inductive ServerEvent where
  | taskStatusUpdated (taskId : String) (status : String)
  | userTyping (user : String) (taskId : String)
  | userStoppedTyping (user : String) (taskId : String)
deriving DecidableEq, Repr

/-- One event arriving at one socket. -/
structure Delivery where
  receiver : String
  event : ServerEvent
deriving DecidableEq, Repr

/-- The state of the socket server: the connected sockets and the room memberships, as
pairs of a room name and a socket id. -/
structure SocketServer where
  sockets : List Socket
  rooms : List (String × String)
deriving DecidableEq, Repr

/-- The name of the room of a task. -/
def taskRoom (taskId : String) : String := "task_" ++ taskId

/-- The effect of `socket.join(room)`; a room is a set of sockets. -/
def joinRoom (rooms : List (String × String)) (room sid : String) : List (String × String) :=
  if rooms.contains (room, sid) then rooms else rooms ++ [(room, sid)]

/-- The effect of `socket.leave(room)`. -/
def leaveRoom (rooms : List (String × String)) (room sid : String) : List (String × String) :=
  rooms.filter (fun m => !(m == (room, sid)))

/-- Whether a socket is in a room. -/
def inRoom (srv : SocketServer) (room sid : String) : Bool :=
  srv.rooms.contains (room, sid)

/-- The deliveries of `io.emit(event)`: one to every connected socket. -/
def ioEmit (srv : SocketServer) (e : ServerEvent) : List Delivery :=
  srv.sockets.map (fun s => { receiver := s.id, event := e })

/-- The deliveries of `socket.to(room).emit(event)`: one to every socket in the room
except the sending one. -/
def toRoomEmit (srv : SocketServer) (sender : Socket) (room : String) (e : ServerEvent) :
    List Delivery :=
  (srv.rooms.filter (fun m => m.1 == room && m.2 != sender.id)).map
    (fun m => { receiver := m.2, event := e })

/-- The handler of `connection`: the socket joins the room of its own id, the room of its
user and the room of its role. -/
def connection (srv : SocketServer) (socket : Socket) : SocketServer :=
  { sockets := srv.sockets ++ [socket],
    rooms := joinRoom (joinRoom (joinRoom srv.rooms socket.id socket.id)
      ("user_" ++ socket.userId) socket.id) ("role_" ++ socket.role) socket.id }

/-- The handlers registered with `socket.on` for the socket `sender`: the new state of the
server and the deliveries the message causes. -/
def onMessage (srv : SocketServer) (sender : Socket) (msg : ClientMessage) :
    SocketServer × List Delivery :=
  match msg with
  | ClientMessage.joinTask taskId =>
    ({ srv with rooms := joinRoom srv.rooms (taskRoom taskId) sender.id }, [])
  | ClientMessage.leaveTask taskId =>
    ({ srv with rooms := leaveRoom srv.rooms (taskRoom taskId) sender.id }, [])
  | ClientMessage.updateTaskStatus taskId status =>
    (srv, ioEmit srv (ServerEvent.taskStatusUpdated taskId status))
  | ClientMessage.typing taskId =>
    (srv, toRoomEmit srv sender (taskRoom taskId)
      (ServerEvent.userTyping sender.userName taskId))
  | ClientMessage.stopTyping taskId =>
    (srv, toRoomEmit srv sender (taskRoom taskId)
      (ServerEvent.userStoppedTyping sender.userName taskId))

/-- The state of the server after a sequence of messages, each with its sending socket. -/
def runMessages (srv : SocketServer) : List (Socket × ClientMessage) → SocketServer
  | [] => srv
  | (sender, msg) :: rest => runMessages (onMessage srv sender msg).1 rest

/-- In the words of the specification: whether the session `sid` has joined the group of
the task and not left it since, over a sequence of messages, `init` telling whether it
was in the group before. -/
def joinedGroup (init : Bool) (sid taskId : String) : List (Socket × ClientMessage) → Bool
  | [] => init
  | (sender, ClientMessage.joinTask t) :: rest =>
    joinedGroup (if sender.id == sid && t == taskId then true else init) sid taskId rest
  | (sender, ClientMessage.leaveTask t) :: rest =>
    joinedGroup (if sender.id == sid && t == taskId then false else init) sid taskId rest
  | (_, _) :: rest => joinedGroup init sid taskId rest

/-! ## frontend/src/context/TaskContext.jsx -/

/-- The handler of `taskCreated`: `setTasks(prev => [task, ...prev])`. -/
def onTaskCreated (prev : List Task) (task : Task) : List Task :=
  task :: prev

/-- The handler of `taskUpdated` on the list `tasks`. -/
def onTaskUpdated (prev : List Task) (task : Task) : List Task :=
  prev.map (fun t => if t._id == task._id then task else t)

/-- The handler of `taskDeleted` on the list `tasks`. -/
def onTaskDeleted (prev : List Task) (taskId : String) : List Task :=
  prev.filter (fun t => t._id != taskId)

/-- The handler of `taskStatusUpdated` on the list `tasks`. -/
def onTaskStatusUpdated (prev : List Task) (taskId status : String) : List Task :=
  prev.map (fun t => if t._id == taskId then { t with status := status } else t)

/-- The update of the list `tasks` when the local `createTask` succeeds with the task of
the response: `setTasks(prev => [response.task, ...prev])`. -/
def createTaskSuccess (prev : List Task) (task : Task) : List Task :=
  task :: prev

/-- The handling of one broadcast event by the client. -/
def onEvent (prev : List Task) (e : Event) : List Task :=
  match e with
  | Event.taskCreated task => onTaskCreated prev task
  | Event.taskUpdated task => onTaskUpdated prev task
  | Event.taskStatusUpdated taskId status => onTaskStatusUpdated prev taskId status
  | Event.taskDeleted taskId => onTaskDeleted prev taskId

/-- The list of a client holds no two entries with the same `_id`. -/
def NoDuplicateIds (tasks : List Task) : Prop :=
  (tasks.map (fun t => t._id)).Nodup

instance (tasks : List Task) : Decidable (NoDuplicateIds tasks) := by
  unfold NoDuplicateIds; infer_instance

/-! ## Sample data for the sockets, the log reader and the client -/

/-- The socket of the plain user `exStranger`. -/
def exStrangerSocket : Socket :=
  { id := "s-stranger", userId := "cccccccccccccccccccccccc", userName := "Carol",
    role := "user" }

/-- The socket of the assignee. -/
def exAssigneeSocket : Socket :=
  { id := "s-assignee", userId := "aaaaaaaaaaaaaaaaaaaaaaaa", userName := "Alice",
    role := "user" }

/-- The socket of the manager. -/
def exManagerSocket : Socket :=
  { id := "s-manager", userId := "bbbbbbbbbbbbbbbbbbbbbbbb", userName := "Bob",
    role := "manager" }

/-- The socket server after the three sample sockets have connected. -/
def exServer : SocketServer :=
  connection (connection (connection { sockets := [], rooms := [] } exStrangerSocket)
    exAssigneeSocket) exManagerSocket

/-- The stranger asks, through the status route, to complete `exTask`. -/
def exStrangerCompleteReq : Req :=
  { user := exStranger, id := exTaskId, body := { status := some "completed" } }

/-- The manager and the assignee join the group of `exTask`, then the assignee leaves. -/
def exTrace : List (Socket × ClientMessage) :=
  [(exManagerSocket, ClientMessage.joinTask exTaskId),
   (exAssigneeSocket, ClientMessage.joinTask exTaskId),
   (exAssigneeSocket, ClientMessage.leaveTask exTaskId)]

/-- A log entry about `exTask`. -/
def exLogTask : ActivityLog :=
  { action := "updated", taskId := exTaskId, taskTitle := "Spec",
    performedBy := "bbbbbbbbbbbbbbbbbbbbbbbb", previousValue := Snapshot.null,
    newValue := Snapshot.null, details := "", ipAddress := "" }

/-- A log entry about `exDoneTask`. -/
def exLogDone : ActivityLog :=
  { action := "completed", taskId := exDoneTaskId, taskTitle := "Spec",
    performedBy := "aaaaaaaaaaaaaaaaaaaaaaaa", previousValue := Snapshot.status "review",
    newValue := Snapshot.status "completed", details := "", ipAddress := "" }

/-- The sample store with one log entry for each of two tasks of the assignee. -/
def exLogWorld : World :=
  { tasks := [exTask, exDoneTask, exOwnTask], logs := [exLogTask, exLogDone], events := [] }

/-- The query string `taskId=` the id of `exTask`. -/
def exTaskIdQuery : Query := { taskId := some exTaskId }

/-- The manager sends the body `{priority: "high"}` for `exTask`. -/
def exManagerPriorityReq : Req :=
  { user := exManager, id := exTaskId, body := { priority := some "high" } }

/-- The assignee sends the body `{status: "review"}` for `exTask`. -/
def exAssigneeStatusReq : Req :=
  { user := exAssignee, id := exTaskId, body := { status := some "review" } }

/-- The assignee sets the completed task `exDoneTask` to `completed` at time 9. -/
def exRecompleteReq : Req :=
  { user := exAssignee, id := exDoneTaskId, now := 9, body := { status := some "completed" } }

/-- A mutation after which the task store, the events and the answer are those of the
same request with a log write that succeeds, and the log is the log before. -/
def SameButLog (w : World) (failing succeeding : World × Response) : Prop :=
  failing.2 = succeeding.2 ∧ failing.1.tasks = succeeding.1.tasks ∧
  failing.1.events = succeeding.1.events ∧ failing.1.logs = w.logs

/-- The document stored by `exCreateReq`. -/
def exCreatedPlain : Task :=
  { _id := exFreshId, title := "Spec", description := "Write design doc", status := "todo",
    priority := "medium", dueDate := none, assignedTo := "aaaaaaaaaaaaaaaaaaaaaaaa",
    createdBy := "bbbbbbbbbbbbbbbbbbbbbbbb", tags := [], completedAt := none, createdAt := 9 }

/-! ## Auxiliary facts -/

theorem keys_sanitize (b : Body) : (sanitize b).keys = b.keys := by
  cases b with
  | mk title description status priority dueDate assignedTo tags others =>
    cases title <;> cases description <;> rfl

theorem findById_some_id {tasks : List Task} {id : String} {t : Task}
    (h : findById tasks id = some t) : t._id = id := by
  unfold findById at h
  have := List.find?_some h
  simpa using this

theorem findById_save {tasks : List Task} {id : String} {t u : Task}
    (h : findById tasks id = some t) (hu : u._id = t._id) :
    findById (save tasks u) id = some u := by
  have hid := findById_some_id h
  induction tasks with
  | nil => simp [findById] at h
  | cons a l ih =>
    unfold findById save at *
    simp only [List.map_cons, List.find?_cons] at h ⊢
    by_cases ha : a._id = id
    · simp [ha, hu, hid]
    · have ha2 : (a._id == id) = false := by simpa using ha
      rw [ha2] at h
      have hne : (a._id == u._id) = false := by
        rw [hu, hid]; exact ha2
      rw [hne]
      simp only [Bool.false_eq_true, if_false, ha2]
      exact ih h

/-- C8: for an existing task and a valid status, the status route answers 200 exactly
when the principal is the assignee of the task or a manager; every other principal,
the creator of the task included, is answered 403 and nothing changes. -/
theorem updateTaskStatus_allowed_iff (w : World) (req : Req) (task : Task) (status : String)
    (hfind : findById w.tasks req.id = some task)
    (hs : req.body.status = some status) (hv : status ∈ statusValues) :
    ((routePatchStatus w req).2.status = 200 ↔
      (task.assignedTo = req.user._id ∨ req.user.role = "manager")) ∧
    (¬ (task.assignedTo = req.user._id ∨ req.user.role = "manager") →
      routePatchStatus w req =
        (w, { status := 403, message := "Not authorized to update this task status" })) ∧
    (task.createdBy = req.user._id → task.assignedTo ≠ req.user._id →
      req.user.role ≠ "manager" → (routePatchStatus w req).2.status = 403) := by
  have key : ¬ (task.assignedTo = req.user._id ∨ req.user.role = "manager") →
      routePatchStatus w req =
        (w, { status := 403, message := "Not authorized to update this task status" }) := by
    intro h
    have h1 : (task.assignedTo == req.user._id) = false := by
      simpa using fun e => h (Or.inl e)
    have h2 : (req.user.role == "manager") = false := by
      simpa using fun e => h (Or.inr e)
    simp [routePatchStatus, updateTaskStatus, hs, hv, hfind, h1, h2]
  refine ⟨⟨?_, ?_⟩, key, ?_⟩
  · intro h
    by_contra hn
    rw [key hn] at h
    simp at h
  · intro h
    have h3 : (!(task.assignedTo == req.user._id) && !(req.user.role == "manager")) = false := by
      rcases h with h | h <;> simp [h]
    simp [routePatchStatus, updateTaskStatus, hs, hv, hfind, h3]
  · intro _ h1 h2
    rw [key (by rintro (h | h); exact h1 h; exact h2 h)]

/-- Witness of C8: the assignee of a sample task moves it to review. -/
theorem updateTaskStatus_allowed_iff_witness :
    (routePatchStatus exWorld exReviewReq).2.status = 200 ↔
      (exTask.assignedTo = exAssignee._id ∨ exAssignee.role = "manager") :=
  (updateTaskStatus_allowed_iff exWorld exReviewReq exTask "review"
    (by decide) (by decide) (by decide)).1

/-- C9: the status route answers 400 exactly when the supplied status is missing or is
not one of the four values of the enum, and then the answer is the same 400 over every
store, with the store, the log and the events left as they were: the check runs before
the task is looked up and before the principal is examined. -/
theorem updateTaskStatus_400_iff (w : World) (req : Req) :
    ((routePatchStatus w req).2.status = 400 ↔
      ¬ ∃ s, req.body.status = some s ∧ s ∈ statusValues) ∧
    ((¬ ∃ s, req.body.status = some s ∧ s ∈ statusValues) →
      ∀ w0 : World, routePatchStatus w0 req =
        (w0, { status := 400, message := "Invalid status value" })) := by
  have key : (¬ ∃ s, req.body.status = some s ∧ s ∈ statusValues) →
      ∀ w0 : World, routePatchStatus w0 req =
        (w0, { status := 400, message := "Invalid status value" }) := by
    intro h w0
    unfold routePatchStatus updateTaskStatus
    cases hs : req.body.status with
    | none => rfl
    | some s =>
      have hn : s ∉ statusValues := fun hm => h ⟨s, hs, hm⟩
      simp [hn]
  refine ⟨⟨?_, fun h => by rw [key h w]⟩, key⟩
  intro h
  rintro ⟨s, hs, hm⟩
  unfold routePatchStatus updateTaskStatus at h
  simp only [hs] at h
  have hc : statusValues.contains s = true := by simpa using hm
  simp only [hc, Bool.not_true, Bool.false_eq_true, if_false] at h
  cases hf : findById w.tasks req.id with
  | none => simp [hf] at h
  | some task =>
    simp only [hf] at h
    split at h <;> simp at h

/-- Witness of C9: a request without a status is answered 400 over the sample store and
over the empty store alike. -/
theorem updateTaskStatus_400_iff_witness :
    (routePatchStatus exWorld exEmptyReq).2.status = 400 ∧
    routePatchStatus exEmptyWorld exEmptyReq =
      (exEmptyWorld, { status := 400, message := "Invalid status value" }) :=
  ⟨(updateTaskStatus_400_iff exWorld exEmptyReq).1.2 (by simp [exEmptyReq]),
   (updateTaskStatus_400_iff exWorld exEmptyReq).2 (by simp [exEmptyReq]) _⟩

/-- C10, as stated, fails: the creator of a task whose role is not manager is answered
403 by the delete route, and the task stays in the store. -/
theorem routeDelete_creator_denied :
    exOwnTask.createdBy = exOwner._id ∧
    findById exWorld.tasks exOwnTaskId = some exOwnTask ∧
    routeDelete exWorld exOwnerDeleteReq =
      (exWorld,
       { status := 403,
         message := "User role \x27user\x27 is not authorized to access this route" }) := by
  decide

/-- C10, amended: for an existing task the delete route answers 200 exactly when the
principal has role manager; every other principal, the creator of the task included, is
answered 403 by the guard of the route and nothing changes. -/
theorem routeDelete_allowed_iff (w : World) (req : Req) (task : Task)
    (hfind : findById w.tasks req.id = some task) :
    ((routeDelete w req).2.status = 200 ↔ req.user.role = "manager") ∧
    (req.user.role ≠ "manager" →
      (routeDelete w req).1 = w ∧ (routeDelete w req).2.status = 403) := by
  by_cases hm : req.user.role = "manager"
  · simp [routeDelete, authorize, deleteTask, hfind, hm]
  · simp [routeDelete, authorize, deleteTask, hfind, hm]

/-- Witness of C10, amended: a manager deletes a sample task. -/
theorem routeDelete_allowed_iff_witness :
    (routeDelete exWorld exManagerDeleteReq).2.status = 200 ↔
      exManagerDeleteReq.user.role = "manager" :=
  (routeDelete_allowed_iff exWorld exManagerDeleteReq exOwnTask (by decide)).1

theorem recomputeCompletedAt_fields (t : Task) (bs : Option String) (ps : String) (now : Nat) :
    (recomputeCompletedAt t bs ps now)._id = t._id ∧
    (recomputeCompletedAt t bs ps now).title = t.title ∧
    (recomputeCompletedAt t bs ps now).description = t.description ∧
    (recomputeCompletedAt t bs ps now).status = t.status ∧
    (recomputeCompletedAt t bs ps now).priority = t.priority ∧
    (recomputeCompletedAt t bs ps now).dueDate = t.dueDate ∧
    (recomputeCompletedAt t bs ps now).assignedTo = t.assignedTo ∧
    (recomputeCompletedAt t bs ps now).createdBy = t.createdBy ∧
    (recomputeCompletedAt t bs ps now).tags = t.tags := by
  unfold recomputeCompletedAt
  split
  · simp
  · split <;> simp

/-- An accepted `updateTask` had no validation errors, and its effect is: the merged
document is saved, one log entry is written and one event is emitted. -/
theorem updateTask_of_ok {w : World} {req : Req} {errors : List String} {task : Task}
    (hfind : findById w.tasks req.id = some task)
    (hok : (updateTask w req errors).2.status = 200) :
    errors = [] ∧
    updateTask w req errors =
      ({ tasks := save w.tasks (updatedTask task req),
         logs := createActivityLog w.logs req.logFails (updateAction req.body task)
           (updatedTask task req) req.user._id (Snapshot.full task)
           (Snapshot.full (updatedTask task req))
           ("Task \"" ++ (updatedTask task req).title ++ "\" was " ++ updateAction req.body task)
           req.ip,
         events := emit w.events req.io (Event.taskUpdated (updatedTask task req)) },
       { status := 200, message := "Task updated successfully",
         task := some (updatedTask task req) }) := by
  unfold updateTask at hok ⊢
  cases errors with
  | cons e es => simp at hok
  | nil =>
    refine ⟨rfl, ?_⟩
    simp only [List.isEmpty_nil, Bool.not_true, Bool.false_eq_true, if_false, hfind] at hok ⊢
    split at hok
    · simp at hok
    · rename_i hc
      rw [if_neg hc]
      rfl

/-- C5: an accepted `updateTask` stores a document in which each of title, description,
status, priority, dueDate, assignedTo and tags has the value of the body when the key
is present and its previous value otherwise, and whose `_id` and `createdBy` are those
of the document before, whatever further keys the body has.  The value of `assignedTo`
is the id the string of the body is cast to, which is that string when it is spelled in
lower case. -/
theorem updateTask_merges_allowed_fields (w : World) (req : Req) (errors : List String)
    (task : Task) (hfind : findById w.tasks req.id = some task)
    (hok : (updateTask w req errors).2.status = 200) :
    ∃ t : Task, (updateTask w req errors).2.task = some t ∧
      findById (updateTask w req errors).1.tasks req.id = some t ∧
      takes req.body.title task.title t.title ∧
      takes req.body.description task.description t.description ∧
      takes req.body.status task.status t.status ∧
      takes req.body.priority task.priority t.priority ∧
      takes (req.body.dueDate.map some) task.dueDate t.dueDate ∧
      takes (req.body.assignedTo.map canonicalId) task.assignedTo t.assignedTo ∧
      (∀ a, req.body.assignedTo = some a → canonicalId a = a → t.assignedTo = a) ∧
      takes req.body.tags task.tags t.tags ∧
      t._id = task._id ∧ t.createdBy = task.createdBy := by
  obtain ⟨_, heq⟩ := updateTask_of_ok hfind hok
  obtain ⟨h1, h2, h3, h4, h5, h6, h7, h8, h9⟩ :=
    recomputeCompletedAt_fields (mergeAllowed task req.body) req.body.status task.status req.now
  refine ⟨updatedTask task req, by rw [heq], ?_, ?_⟩
  · rw [heq]
    exact findById_save hfind (by unfold updatedTask; rw [h1]; rfl)
  · unfold updatedTask
    rw [h1, h2, h3, h4, h5, h6, h7, h8, h9]
    unfold takes mergeAllowed
    refine ⟨?_, ?_, ?_, ?_, ?_, ?_, ?_, ?_, rfl, rfl⟩
    · cases req.body.title <;> rfl
    · cases req.body.description <;> rfl
    · cases req.body.status <;> rfl
    · cases req.body.priority <;> rfl
    · cases req.body.dueDate <;> rfl
    · cases req.body.assignedTo <;> rfl
    · intro a ha hc
      simp only [ha, Option.map_some', Option.getD_some, hc]
    · cases req.body.tags <;> rfl

/-- Witness of C5: the manager renames a sample task; the body also carries a
`createdBy` key. -/
theorem updateTask_merges_allowed_fields_witness :
    ∃ t : Task,
      (updateTask exWorld exRenameReq []).2.task = some t ∧
      findById (updateTask exWorld exRenameReq []).1.tasks exRenameReq.id = some t ∧
      takes exRenameReq.body.title exTask.title t.title ∧
      t._id = exTask._id ∧ t.createdBy = exTask.createdBy := by
  obtain ⟨t, h1, h2, h3, _, _, _, _, _, _, _, h5, h6⟩ :=
    updateTask_merges_allowed_fields exWorld exRenameReq [] exTask (by decide) (by decide)
  exact ⟨t, h1, h2, h3, h5, h6⟩

/-- C3, as stated, fails: an assignee who is neither creator nor manager sends a body with
a key other than `status`, and the update route answers 400, not 403, because the
validation of the route runs first; so for the body `{priority: "urgent"}`, which lacks
the keys the validation requires, and for a body whose priority is outside the enum. -/
theorem routePut_assignee_extra_key_400 :
    exTask.assignedTo = exAssignee._id ∧ exTask.createdBy ≠ exAssignee._id ∧
    exAssignee.role ≠ "manager" ∧
    findById exWorld.tasks exTaskId = some exTask ∧
    exPriorityReq.body.keys.any (fun key => key != "status") = true ∧
    (∀ iso : String → Bool, (routePut iso exWorld exPriorityReq).2.status = 400) ∧
    exBadPriorityReq.body.keys.any (fun key => key != "status") = true ∧
    (∀ iso : String → Bool, (routePut iso exWorld exBadPriorityReq).2.status = 400) := by
  refine ⟨by decide, by decide, by decide, by decide, by decide, ?_, by decide, ?_⟩
  · intro iso; rfl
  · intro iso; rfl

/-- C3, amended: for an assignee who is neither creator nor manager and a body with a key
other than `status`, the update route answers 403 when the body passes the validation of
the route and 400 with the validation errors when it does not; in both cases the store,
the activity log and the events are left as they were. -/
theorem routePut_assignee_extra_key (isISO8601 : String → Bool) (w : World) (req : Req)
    (task : Task) (hfind : findById w.tasks req.id = some task)
    (hA : task.assignedTo = req.user._id) (hC : task.createdBy ≠ req.user._id)
    (hM : req.user.role ≠ "manager")
    (hk : req.body.keys.any (fun key => key != "status") = true) :
    (taskValidation isISO8601 req.body = [] →
      routePut isISO8601 w req =
        (w, { status := 403, message := "You can only update the task status" })) ∧
    (taskValidation isISO8601 req.body ≠ [] →
      routePut isISO8601 w req =
        (w, { status := 400, errors := taskValidation isISO8601 req.body })) := by
  constructor
  · intro hv
    have h1 : (req.user.role == "manager") = false := by simpa using hM
    have h2 : (task.createdBy == req.user._id) = false := by simpa using hC
    have h3 : (task.assignedTo == req.user._id) = true := by simpa using hA
    unfold routePut updateTask
    simp only [hv, keys_sanitize, hfind, h1, h2, h3, hk]
    rfl
  · intro hv
    unfold routePut updateTask
    cases he : taskValidation isISO8601 req.body with
    | nil => exact absurd he hv
    | cons e es => rfl

/-- Witness of C3, amended: the assignee sends a body that passes the validation and has
the keys title, description and assignedTo; the answer is 403 and nothing changes. -/
theorem routePut_assignee_extra_key_witness :
    routePut (fun _ => true) exWorld exAssigneeEditReq =
      (exWorld, { status := 403, message := "You can only update the task status" }) :=
  (routePut_assignee_extra_key (fun _ => true) exWorld exAssigneeEditReq exTask
    (by decide) (by decide) (by decide) (by decide) (by decide)).1 (by decide)

/-- A body that passes `taskValidation` has a status of the enum or none, and an assignee
that is a string of 24 hexadecimal digits. -/
theorem taskValidation_nil {isISO8601 : String → Bool} {b : Body}
    (h : taskValidation isISO8601 b = []) :
    (∀ s, b.status = some s → s ∈ statusValues) ∧
    (∃ a, b.assignedTo = some a ∧ a ≠ "") := by
  unfold taskValidation at h
  simp only [List.append_eq_nil] at h
  obtain ⟨⟨⟨⟨⟨⟨⟨⟨_, _⟩, _⟩, _⟩, hs⟩, _⟩, ha⟩, _⟩, _⟩ := h
  constructor
  · intro s hs1
    rw [hs1] at hs
    by_contra hn
    simp [hn] at hs
  · cases hb : b.assignedTo with
    | none => rw [hb] at ha; simp at ha
    | some a =>
      refine ⟨a, rfl, ?_⟩
      rintro rfl
      rw [hb] at ha
      simp at ha

theorem ne_empty_of_mem_statusValues {s : String} (h : s ∈ statusValues) : s ≠ "" := by
  rintro rfl
  revert h
  decide

/-- The action computed by `updateTask` is the classification of the specification
applied to the merged document, for a body whose status and assignee, when present, are
not the empty string, and whose assignee is written in the canonical spelling. -/
theorem updateAction_eq_classifySpec (b : Body) (task : Task)
    (hs : ∀ s, b.status = some s → s ≠ "") (ha : ∀ a, b.assignedTo = some a → a ≠ "")
    (hcanon : ∀ a, b.assignedTo = some a → canonicalId a = a) :
    updateAction b task =
      classifySpec ((mergeAllowed task b).assignedTo != task.assignedTo)
        ((mergeAllowed task b).status != task.status) (mergeAllowed task b).status := by
  cases b with
  | mk title description status priority dueDate assignedTo tags others =>
    simp only [mergeAllowed, updateAction, classifySpec, truthy]
    cases status with
    | none =>
      cases assignedTo with
      | none => simp
      | some a =>
        have hane := ha a rfl
        simp only [Option.map_some', Option.getD_some, hcanon a rfl]
        by_cases hc : a = task.assignedTo <;> simp [hc, hane]
    | some s =>
      have hsne := hs s rfl
      cases assignedTo with
      | none =>
        by_cases he : s = "completed"
        · subst he
          by_cases hd : "completed" = task.status <;> simp [hd]
        · by_cases hd : s = task.status <;> simp [hd, he, hsne]
      | some a =>
        have hane := ha a rfl
        simp only [Option.map_some', Option.getD_some, hcanon a rfl]
        by_cases he : s = "completed"
        · subst he
          by_cases hc : a = task.assignedTo <;> by_cases hd : "completed" = task.status <;>
            simp [hc, hd, hane]
        · by_cases hc : a = task.assignedTo <;> by_cases hd : s = task.status <;>
            simp [hc, hd, he, hane, hsne]

/-- The action `updateTask` logs, for a body whose status and assignee, when present, are
not the empty string, and whose assignee is written in the canonical spelling. -/
theorem updateTask_logged_action {w : World} {req : Req} {errors : List String} {task : Task}
    (hfind : findById w.tasks req.id = some task)
    (hok : (updateTask w req errors).2.status = 200) (hlog : req.logFails = false)
    (hs : ∀ s, req.body.status = some s → s ≠ "")
    (ha : ∀ a, req.body.assignedTo = some a → a ≠ "")
    (hcanon : ∀ a, req.body.assignedTo = some a → canonicalId a = a) :
    ∃ (t : Task) (e : ActivityLog),
      (updateTask w req errors).2.task = some t ∧
      findById (updateTask w req errors).1.tasks req.id = some t ∧
      (updateTask w req errors).1.logs = w.logs ++ [e] ∧
      e.action = classifySpec (t.assignedTo != task.assignedTo) (t.status != task.status)
        t.status := by
  obtain ⟨_, heq⟩ := updateTask_of_ok hfind hok
  obtain ⟨h1, _, _, h4, _, _, h7, _, _⟩ :=
    recomputeCompletedAt_fields (mergeAllowed task req.body) req.body.status task.status req.now
  rw [heq]
  refine ⟨updatedTask task req,
    { action := updateAction req.body task, taskId := (updatedTask task req)._id,
      taskTitle := (updatedTask task req).title, performedBy := req.user._id,
      previousValue := Snapshot.full task, newValue := Snapshot.full (updatedTask task req),
      details := "Task \"" ++ (updatedTask task req).title ++ "\" was "
        ++ updateAction req.body task,
      ipAddress := req.ip },
    rfl, findById_save hfind (by unfold updatedTask; rw [h1]; rfl), ?_, ?_⟩
  · simp only [createActivityLog, hlog, Bool.false_eq_true, if_false]
  · unfold updatedTask
    simp only [h4, h7]
    exact updateAction_eq_classifySpec req.body task hs ha hcanon

/-- An accepted request to the update route whose log entry is written and whose body
writes the assignee in the canonical spelling appends one entry, and its action is
`assigned` if the stored assignee differs from the one before (also when the status changed
too), else `completed` if the status changed to `completed`, else `status_changed` if the
status changed, else `updated`. -/
theorem routePut_logged_action_of_canonical (isISO8601 : String → Bool) (w : World)
    (req : Req) (task : Task) (hfind : findById w.tasks req.id = some task)
    (hok : (routePut isISO8601 w req).2.status = 200) (hlog : req.logFails = false)
    (hcanon : ∀ a, req.body.assignedTo = some a → canonicalId a = a) :
    ∃ (t : Task) (e : ActivityLog),
      (routePut isISO8601 w req).2.task = some t ∧
      findById (routePut isISO8601 w req).1.tasks req.id = some t ∧
      (routePut isISO8601 w req).1.logs = w.logs ++ [e] ∧
      e.action = classifySpec (t.assignedTo != task.assignedTo) (t.status != task.status)
        t.status := by
  unfold routePut at hok ⊢
  have hfind2 : findById w.tasks ({ req with body := sanitize req.body } : Req).id = some task :=
    hfind
  obtain ⟨hv, _⟩ := updateTask_of_ok hfind2 hok
  obtain ⟨hs, a, ha, hane⟩ := taskValidation_nil hv
  refine updateTask_logged_action hfind2 hok hlog ?_ ?_ ?_
  · intro s h
    exact ne_empty_of_mem_statusValues (hs s h)
  · intro a2 h
    have h2 : req.body.assignedTo = some a2 := h
    rw [ha] at h2
    cases h2
    exact hane
  · intro a2 h
    exact hcanon a2 h

/-- The manager reassigns a sample task and completes it in the same request; the entry
written has the action the classification gives. -/
theorem routePut_logged_action_of_canonical_reassign :
    ∃ (t : Task) (e : ActivityLog),
      (routePut (fun _ => true) exWorld exReassignReq).2.task = some t ∧
      findById (routePut (fun _ => true) exWorld exReassignReq).1.tasks exReassignReq.id
        = some t ∧
      (routePut (fun _ => true) exWorld exReassignReq).1.logs = exWorld.logs ++ [e] ∧
      e.action = classifySpec (t.assignedTo != exTask.assignedTo) (t.status != exTask.status)
        t.status :=
  routePut_logged_action_of_canonical (fun _ => true) exWorld exReassignReq exTask
    (by decide) (by decide) (by decide) (by decide)

/-- C6: the action logged by the update route is not the classification of the
specification when the body names the current assignee with upper-case digits.  The
validation accepts the id, the request is answered 200, the stored document is the one
before (the assignee is the same id), yet the comparison of the raw strings logs
`assigned`, where the classification gives `updated` for an unchanged assignee and
status. -/
theorem routePut_logs_assigned_for_unchanged_assignee (isISO8601 : String → Bool) :
    (routePut isISO8601 exWorld exUpperAssigneeReq).2.status = 200 ∧
    (routePut isISO8601 exWorld exUpperAssigneeReq).2.task = some exTask ∧
    findById (routePut isISO8601 exWorld exUpperAssigneeReq).1.tasks exUpperAssigneeReq.id
      = some exTask ∧
    (routePut isISO8601 exWorld exUpperAssigneeReq).1.logs.map (fun e => e.action)
      = ["assigned"] ∧
    classifySpec (exTask.assignedTo != exTask.assignedTo) (exTask.status != exTask.status)
      exTask.status = "updated" := by
  have h : (routePut isISO8601 exWorld exUpperAssigneeReq).1.tasks
      = [exTask, exDoneTask, exOwnTask] := rfl
  refine ⟨rfl, rfl, ?_, rfl, by decide⟩
  rw [h]
  decide

/-- An accepted `updateTaskStatus` stores a document that satisfies the invariant. -/
theorem updateTaskStatus_completedInv {w : World} {req : Req} {task : Task}
    (hfind : findById w.tasks req.id = some task)
    (hok : (updateTaskStatus w req).2.status = 200) :
    ∃ t : Task, (updateTaskStatus w req).2.task = some t ∧
      findById (updateTaskStatus w req).1.tasks req.id = some t ∧ completedInv t := by
  unfold updateTaskStatus at hok ⊢
  cases hs : req.body.status with
  | none => simp [hs] at hok
  | some s =>
    simp only [hs, hfind] at hok ⊢
    split at hok
    · simp at hok
    · rename_i h1
      rw [if_neg h1]
      split at hok
      · simp at hok
      · rename_i h2
        rw [if_neg h2]
        by_cases hc : s = "completed"
        · subst hc
          refine ⟨_, rfl, findById_save hfind rfl, ?_⟩
          simp [completedInv]
        · have hc2 : (s == "completed") = false := by simpa using hc
          refine ⟨_, rfl, findById_save hfind (by simp only [hc2]; rfl), ?_⟩
          simp [completedInv, hc]

/-- The document stored by an accepted `updateTask` whose body carries a status satisfies
the invariant when the document before did. -/
theorem updatedTask_completedInv_of_status {req : Req} {task : Task} {s : String}
    (hs : req.body.status = some s) (hinv : completedInv task) :
    completedInv (updatedTask task req) := by
  unfold completedInv at hinv ⊢
  unfold updatedTask recomputeCompletedAt
  rw [hs]
  by_cases hc : s = "completed"
  · subst hc
    by_cases hp : task.status = "completed"
    · simp [hp, mergeAllowed, hs, hinv]
    · simp [hp, mergeAllowed, hs]
  · simp [hc, mergeAllowed, hs]

/-- C1, evaluated where it fails.  The completed task `exDoneTask` satisfies the
invariant; the manager sends an update without a `status` key, the route answers 200 and
the stored document has status `completed` with `completedAt` null.  And the manager
creates a task with status `completed`: the route answers 201 and the stored document
has status `completed` with `completedAt` null. -/
theorem completedInv_broken_by_updateTask_and_createTask (isISO8601 : String → Bool) :
    completedInv exDoneTask ∧
    (routePut isISO8601 exWorld exDoneEditReq).2.status = 200 ∧
    findById (routePut isISO8601 exWorld exDoneEditReq).1.tasks exDoneTaskId = some exDoneEdited ∧
    exDoneEdited.status = "completed" ∧ exDoneEdited.completedAt = none ∧
    ¬ completedInv exDoneEdited ∧
    (routePost isISO8601 exWorld exCreateDoneReq).2.status = 201 ∧
    findById (routePost isISO8601 exWorld exCreateDoneReq).1.tasks exFreshId
      = some exCreatedDone ∧
    exCreatedDone.status = "completed" ∧ exCreatedDone.completedAt = none ∧
    ¬ completedInv exCreatedDone := by
  refine ⟨by decide, rfl, ?_, rfl, rfl, by decide, rfl, ?_, rfl, rfl, by decide⟩
  · have h : (routePut isISO8601 exWorld exDoneEditReq).1.tasks
        = [exTask, exDoneEdited, exOwnTask] := rfl
    rw [h]
    decide
  · have h : (routePost isISO8601 exWorld exCreateDoneReq).1.tasks
        = [exTask, exDoneTask, exOwnTask, exCreatedDone] := rfl
    rw [h]
    decide

/-- C2, evaluated where it fails: `exStranger` has role `user` and is neither the creator
nor the assignee of `exTask`, yet the update route answers 200 to their request and the
stored document carries the new title. -/
theorem routePut_stranger_not_denied (isISO8601 : String → Bool) :
    exTask.createdBy ≠ exStranger._id ∧ exTask.assignedTo ≠ exStranger._id ∧
    exStranger.role ≠ "manager" ∧
    findById exWorld.tasks exTaskId = some exTask ∧
    (routePut isISO8601 exWorld exStrangerEditReq).2.status = 200 ∧
    findById (routePut isISO8601 exWorld exStrangerEditReq).1.tasks exTaskId
      = some { exTask with title := "Spec v2" } := by
  refine ⟨by decide, by decide, by decide, by decide, rfl, ?_⟩
  have h : (routePut isISO8601 exWorld exStrangerEditReq).1.tasks
      = [{ exTask with title := "Spec v2" }, exDoneTask, exOwnTask] := rfl
  rw [h]
  decide

/-- C4, evaluated where it fails: the manager raises the priority of the completed task
`exDoneTask` with a body that has no `status` key; the route answers 200, `completedAt`
was 5 before the update and is null after it. -/
theorem routePut_without_status_clears_completedAt (isISO8601 : String → Bool) :
    exDonePriorityReq.body.status = none ∧
    (findById exWorld.tasks exDoneTaskId).map (fun t => t.completedAt) = some (some 5) ∧
    (routePut isISO8601 exWorld exDonePriorityReq).2.status = 200 ∧
    (findById (routePut isISO8601 exWorld exDonePriorityReq).1.tasks exDoneTaskId).map
      (fun t => (t.status, t.completedAt)) = some ("completed", none) := by
  refine ⟨rfl, by decide, rfl, ?_⟩
  have h : (routePut isISO8601 exWorld exDonePriorityReq).1.tasks
      = [exTask, { exDoneTask with priority := "high", completedAt := none }, exOwnTask] := rfl
  rw [h]
  decide

/-- C7, evaluated where it fails: the assignee sets `exTask` to `completed` at time 10
and again at time 20; both calls are answered 200, `completedAt` is 10 after the first
call and 20 after the second. -/
theorem updateTaskStatus_twice_restamps :
    (routePatchStatus exWorld (exCompleteReq 10)).2.status = 200 ∧
    (routePatchStatus (routePatchStatus exWorld (exCompleteReq 10)).1
      (exCompleteReq 20)).2.status = 200 ∧
    (findById (routePatchStatus exWorld (exCompleteReq 10)).1.tasks exTaskId).map
      (fun t => t.completedAt) = some (some 10) ∧
    (findById (routePatchStatus (routePatchStatus exWorld (exCompleteReq 10)).1
      (exCompleteReq 20)).1.tasks exTaskId).map (fun t => t.completedAt) = some (some 20) := by
  decide

/-! ## Deletion, creation and the single-task read -/

theorem findById_findByIdAndDelete {tasks : List Task} {id : String}
    (hnodup : (tasks.map (fun t => t._id)).Nodup) :
    findById (findByIdAndDelete tasks id) id = none := by
  unfold findById findByIdAndDelete
  induction tasks with
  | nil => rfl
  | cons a l ih =>
    simp only [List.map_cons, List.nodup_cons] at hnodup
    by_cases ha : a._id = id
    · have hb : (a._id == id) = true := by simpa using ha
      rw [List.eraseP_cons]
      simp only [hb, cond_true]
      rw [List.find?_eq_none]
      intro x hx hxid
      have hxid2 : x._id = id := by simpa using hxid
      exact hnodup.1 (by rw [ha, ← hxid2]; exact List.mem_map_of_mem _ hx)
    · have hc : (a._id == id) = false := by simpa using ha
      rw [List.eraseP_cons]
      simp only [hc, cond_false, List.find?_cons]
      exact ih hnodup.2

/-- A handler whose log write fails leaves the activity log as it was. -/
theorem createTask_logs_of_logFails (w : World) (req : Req) (errors : List String)
    (hlog : req.logFails = true) : (createTask w req errors).1.logs = w.logs := by
  unfold createTask
  split
  · rfl
  · simp only
    split
    · rfl
    · simp only [hlog, createActivityLog, if_true]

theorem updateTask_logs_of_logFails (w : World) (req : Req) (errors : List String)
    (hlog : req.logFails = true) : (updateTask w req errors).1.logs = w.logs := by
  unfold updateTask
  split
  · rfl
  · split
    · rfl
    · dsimp only
      split
      · rfl
      · simp only [hlog, createActivityLog, if_true]

theorem updateTaskStatus_logs_of_logFails (w : World) (req : Req)
    (hlog : req.logFails = true) : (updateTaskStatus w req).1.logs = w.logs := by
  unfold updateTaskStatus
  split
  · rfl
  · split
    · rfl
    · split
      · rfl
      · dsimp only
        split
        · rfl
        · simp only [hlog, createActivityLog, if_true]

theorem deleteTask_logs_of_logFails (w : World) (req : Req)
    (hlog : req.logFails = true) : (deleteTask w req).1.logs = w.logs := by
  unfold deleteTask
  split
  · rfl
  · dsimp only
    split
    · rfl
    · simp only [hlog, createActivityLog, if_true]

/-- C11, where the claim as worded fails: the manager deletes a sample task while the write
to the activity log fails; the request is answered 200 and the task is gone from the
store, but no entry was appended. -/
theorem deleteTask_succeeds_without_entry :
    (deleteTask exWorld exManagerDeleteLogFailReq).2.status = 200 ∧
    findById exWorld.tasks exManagerDeleteLogFailReq.id = some exOwnTask ∧
    findById (deleteTask exWorld exManagerDeleteLogFailReq).1.tasks
      exManagerDeleteLogFailReq.id = none ∧
    (deleteTask exWorld exManagerDeleteLogFailReq).1.logs = [] := by
  decide

/-- C11: after a successful `deleteTask` the task is gone from the store.  When the log
write succeeds, one entry is appended with action `deleted`, the title of the task, the
full stored task as `previousValue` and null as `newValue`; the entry is taken from the
document found before the removal and is in the log after the request.  When the log
write fails, no entry is appended. -/
theorem deleteTask_log_entry (w : World) (req : Req) (task : Task)
    (hfind : findById w.tasks req.id = some task)
    (hnodup : (w.tasks.map (fun t => t._id)).Nodup)
    (hok : (deleteTask w req).2.status = 200) :
    findById (deleteTask w req).1.tasks req.id = none ∧
    (req.logFails = false →
      ∃ e : ActivityLog,
        (deleteTask w req).1.logs = w.logs ++ [e] ∧
        e.action = "deleted" ∧ e.taskId = task._id ∧ e.taskTitle = task.title ∧
        e.previousValue = Snapshot.full task ∧ e.newValue = Snapshot.null ∧
        e ∈ (deleteTask w req).1.logs) ∧
    (req.logFails = true → (deleteTask w req).1.logs = w.logs) := by
  refine ⟨?_, ?_, deleteTask_logs_of_logFails w req⟩
  · unfold deleteTask at hok ⊢
    simp only [hfind] at hok ⊢
    split at hok
    · simp at hok
    · rename_i hc
      rw [if_neg hc]
      exact findById_findByIdAndDelete hnodup
  · intro hlog
    unfold deleteTask at hok ⊢
    simp only [hfind] at hok ⊢
    split at hok
    · simp at hok
    · rename_i hc
      rw [if_neg hc]
      simp only [createActivityLog, hlog, Bool.false_eq_true, if_false]
      exact ⟨_, rfl, rfl, rfl, rfl, rfl, rfl, by simp⟩

/-- Witness of C11: the manager deletes a sample task and the entry is written. -/
theorem deleteTask_log_entry_witness :
    findById (deleteTask exWorld exManagerDeleteReq).1.tasks exManagerDeleteReq.id = none ∧
    ∃ e : ActivityLog,
      (deleteTask exWorld exManagerDeleteReq).1.logs = exWorld.logs ++ [e] ∧
      e.action = "deleted" ∧ e.taskId = exOwnTask._id ∧ e.taskTitle = exOwnTask.title ∧
      e.previousValue = Snapshot.full exOwnTask ∧ e.newValue = Snapshot.null ∧
      e ∈ (deleteTask exWorld exManagerDeleteReq).1.logs :=
  ⟨(deleteTask_log_entry exWorld exManagerDeleteReq exOwnTask (by decide) (by decide)
      (by decide)).1,
   (deleteTask_log_entry exWorld exManagerDeleteReq exOwnTask (by decide) (by decide)
      (by decide)).2.1 (by decide)⟩

/-- An accepted `createTask` had no validation errors and a body with the three required
keys, and its effect is: the new document is stored, one log entry is written and one
event is emitted. -/
theorem createTask_of_ok {w : World} {req : Req} {errors : List String}
    (hok : (createTask w req errors).2.status = 201) :
    errors = [] ∧ ∃ ti de a, req.body.title = some ti ∧ req.body.description = some de ∧
      req.body.assignedTo = some a ∧
      createTask w req errors =
        ({ tasks := w.tasks ++ [createdTask req ti de a],
           logs := createActivityLog w.logs req.logFails "created" (createdTask req ti de a)
             req.user._id Snapshot.null (Snapshot.full (createdTask req ti de a))
             ("Task \"" ++ ti ++ "\" was created") req.ip,
           events := emit w.events req.io (Event.taskCreated (createdTask req ti de a)) },
         { status := 201, message := "Task created successfully",
           task := some (createdTask req ti de a) }) := by
  unfold createTask at hok ⊢
  cases errors with
  | cons e es => simp at hok
  | nil =>
    refine ⟨rfl, ?_⟩
    simp only [List.isEmpty_nil, Bool.not_true, Bool.false_eq_true, if_false] at hok ⊢
    cases ht : req.body.title with
    | none => simp [ht, taskCreate] at hok
    | some ti =>
      cases hd : req.body.description with
      | none => simp [ht, hd, taskCreate] at hok
      | some de =>
        cases ha : req.body.assignedTo with
        | none => simp [ht, hd, ha, taskCreate] at hok
        | some a => exact ⟨ti, de, a, rfl, rfl, rfl, rfl⟩

theorem authorize_manager (u : User) :
    authorize ["manager"] (some u) =
      if u.role = "manager" then none
      else some { status := 403,
                  message :=
                    "User role \x27" ++ u.role
                      ++ "\x27 is not authorized to access this route" } := by
  unfold authorize
  by_cases h : u.role = "manager"
  · simp [h]
  · have h2 : (u.role == "manager") = false := by simpa using h
    simp [h, List.contains, List.elem, h2]

theorem routePost_of_manager {isISO8601 : String → Bool} {w : World} {req : Req}
    (hm : req.user.role = "manager") :
    routePost isISO8601 w req =
      if req.limited then
        (w, { status := 429, message := "Too many tasks created, please try again later" })
      else
        createTask w { req with body := sanitize req.body }
          (taskValidation isISO8601 req.body) := by
  unfold routePost
  rw [authorize_manager, if_pos hm]

theorem routePost_of_not_manager {isISO8601 : String → Bool} {w : World} {req : Req}
    (hm : req.user.role ≠ "manager") :
    routePost isISO8601 w req =
      (w, { status := 403,
            message := "User role \x27" ++ req.user.role
              ++ "\x27 is not authorized to access this route" }) := by
  unfold routePost
  rw [authorize_manager, if_neg hm]

/-- C12: the creation route answers 201 only to a principal of role manager, every other
principal is answered 403 and nothing changes; and the document created has the
requesting principal as `createdBy`, whatever keys the body has. -/
theorem routePost_manager_only (isISO8601 : String → Bool) (w : World) (req : Req) :
    ((routePost isISO8601 w req).2.status = 201 →
      req.user.role = "manager" ∧
      ∃ t : Task, (routePost isISO8601 w req).2.task = some t ∧
        (routePost isISO8601 w req).1.tasks = w.tasks ++ [t] ∧
        t.createdBy = req.user._id) ∧
    (req.user.role ≠ "manager" →
      (routePost isISO8601 w req).1 = w ∧ (routePost isISO8601 w req).2.status = 403) := by
  by_cases hm : req.user.role = "manager"
  · refine ⟨fun hok => ⟨hm, ?_⟩, fun h => absurd hm h⟩
    rw [routePost_of_manager hm] at hok ⊢
    by_cases hl : req.limited = true
    · rw [if_pos hl] at hok
      simp at hok
    · rw [if_neg hl] at hok ⊢
      obtain ⟨_, ti, de, a, _, _, _, heq⟩ :=
        @createTask_of_ok w { req with body := sanitize req.body }
          (taskValidation isISO8601 req.body) hok
      rw [heq]
      exact ⟨_, rfl, rfl, rfl⟩
  · refine ⟨fun hok => ?_, fun _ => ?_⟩
    · rw [routePost_of_not_manager hm] at hok
      simp at hok
    · rw [routePost_of_not_manager hm]
      exact ⟨rfl, rfl⟩

/-- Witness of C12: the manager creates a task with a body that carries a `createdBy`
key. -/
theorem routePost_manager_only_witness :
    exCreateReq.user.role = "manager" ∧
    ∃ t : Task, (routePost (fun _ => true) exWorld exCreateReq).2.task = some t ∧
      (routePost (fun _ => true) exWorld exCreateReq).1.tasks = exWorld.tasks ++ [t] ∧
      t.createdBy = exCreateReq.user._id :=
  (routePost_manager_only (fun _ => true) exWorld exCreateReq).1 (by decide)

/-- A body that passes `taskValidation` has the keys title, description and assignedTo. -/
theorem taskValidation_required {isISO8601 : String → Bool} {b : Body}
    (h : taskValidation isISO8601 b = []) :
    ∃ ti de a, b.title = some ti ∧ b.description = some de ∧ b.assignedTo = some a := by
  obtain ⟨_, a, ha, _⟩ := taskValidation_nil h
  unfold taskValidation at h
  simp only [List.append_eq_nil] at h
  obtain ⟨⟨⟨⟨⟨⟨⟨⟨ht, _⟩, hd⟩, _⟩, _⟩, _⟩, _⟩, _⟩, _⟩ := h
  have he : (trim "").length = 0 := by decide
  cases hti : b.title with
  | none => rw [hti] at ht; simp [he] at ht
  | some ti =>
    cases hde : b.description with
    | none => rw [hde] at hd; simp [he] at hd
    | some de => exact ⟨ti, de, a, rfl, rfl, ha⟩

/-- The effect of `createTask` on a request without validation errors whose body has the
three required keys. -/
theorem createTask_of_required {w : World} {req : Req} {ti de a : String}
    (ht : req.body.title = some ti) (hd : req.body.description = some de)
    (ha : req.body.assignedTo = some a) :
    createTask w req [] =
      ({ tasks := w.tasks ++ [createdTask req ti de a],
         logs := createActivityLog w.logs req.logFails "created" (createdTask req ti de a)
           req.user._id Snapshot.null (Snapshot.full (createdTask req ti de a))
           ("Task \"" ++ ti ++ "\" was created") req.ip,
         events := emit w.events req.io (Event.taskCreated (createdTask req ti de a)) },
       { status := 201, message := "Task created successfully",
         task := some (createdTask req ti de a) }) := by
  unfold createTask
  simp only [List.isEmpty_nil, Bool.not_true, Bool.false_eq_true, if_false, ht, hd, ha,
    taskCreate]
  rfl

/-- C13: a valid create request of a manager that omits status, priority and tags is
answered 201; the document created has status `todo`, priority `medium`, no tags and
`completedAt` null; when the log write does not fail the entry appended has action
`created`, `previousValue` null and the full created document as `newValue`; and when
`req.io` is set the event `taskCreated` with the full document is emitted. -/
theorem routePost_defaults (isISO8601 : String → Bool) (w : World) (req : Req)
    (hm : req.user.role = "manager") (hl : req.limited = false)
    (hv : taskValidation isISO8601 req.body = [])
    (hs : req.body.status = none) (hp : req.body.priority = none)
    (ht : req.body.tags = none) (hlog : req.logFails = false) (hio : req.io = true) :
    ∃ (t : Task) (e : ActivityLog),
      routePost isISO8601 w req =
        ({ tasks := w.tasks ++ [t], logs := w.logs ++ [e],
           events := w.events ++ [Event.taskCreated t] },
         { status := 201, message := "Task created successfully", task := some t }) ∧
      t.status = "todo" ∧ t.priority = "medium" ∧ t.tags = [] ∧ t.completedAt = none ∧
      e.action = "created" ∧ e.previousValue = Snapshot.null ∧
      e.newValue = Snapshot.full t := by
  obtain ⟨ti, de, a, hti, hde, ha⟩ := taskValidation_required hv
  have hti2 : (sanitize req.body).title = some (trim ti) := by simp [sanitize, hti]
  have hde2 : (sanitize req.body).description = some (trim de) := by simp [sanitize, hde]
  have ha2 : (sanitize req.body).assignedTo = some a := by simp [sanitize, ha]
  have heq := @createTask_of_required w { req with body := sanitize req.body } (trim ti)
    (trim de) a hti2 hde2 ha2
  rw [routePost_of_manager hm, if_neg (by simp [hl]), hv, heq]
  have h1 : (createdTask { req with body := sanitize req.body } (trim ti) (trim de) a).status
      = "todo" := by simp [createdTask, sanitize, hs, truthy]
  have h2 : (createdTask { req with body := sanitize req.body } (trim ti) (trim de) a).priority
      = "medium" := by simp [createdTask, sanitize, hp, truthy]
  have h3 : (createdTask { req with body := sanitize req.body } (trim ti) (trim de) a).tags
      = [] := by simp [createdTask, sanitize, ht]
  obtain ⟨t, hdef⟩ : ∃ t, t
      = createdTask { req with body := sanitize req.body } (trim ti) (trim de) a := ⟨_, rfl⟩
  rw [← hdef] at h1 h2 h3 ⊢
  refine ⟨t,
    { action := "created", taskId := t._id, taskTitle := t.title, performedBy := req.user._id,
      previousValue := Snapshot.null, newValue := Snapshot.full t,
      details := "Task \"" ++ trim ti ++ "\" was created", ipAddress := req.ip },
    ?_, h1, h2, h3, ?_, rfl, rfl, rfl⟩
  · simp only [createActivityLog, hlog, emit, hio, Bool.false_eq_true, if_false, if_true]
  · rw [hdef]; rfl

/-- Witness of C13: the manager creates a task from a body with title, description and
assignee only. -/
theorem routePost_defaults_witness :
    ∃ (t : Task) (e : ActivityLog),
      routePost (fun _ => true) exWorld exCreateReq =
        ({ tasks := exWorld.tasks ++ [t], logs := exWorld.logs ++ [e],
           events := exWorld.events ++ [Event.taskCreated t] },
         { status := 201, message := "Task created successfully", task := some t }) ∧
      t.status = "todo" ∧ t.priority = "medium" ∧ t.tags = [] ∧ t.completedAt = none ∧
      e.action = "created" ∧ e.previousValue = Snapshot.null ∧
      e.newValue = Snapshot.full t :=
  routePost_defaults (fun _ => true) exWorld exCreateReq (by decide) (by decide) (by decide)
    (by decide) (by decide) (by decide) (by decide) (by decide)

/-- C14, where the claim as worded fails: no task has the id `abc`, yet `getTask` does not
answer 404: the store cannot cast the string to an ObjectId, the query throws and the
`catch` block answers 500. -/
theorem getTask_malformed_id_500 :
    (∀ t ∈ exWorld.tasks, t._id ≠ "abc") ∧
    (getTask exWorld exManager "abc").status = 500 ∧
    (getTask exWorld exManager "abc").message = "Error fetching task" := by
  decide

/-- C14: for a route parameter of 24 hexadecimal digits `getTask` answers 404 when no task
has that id; for an existing task it answers 200 with that task exactly when the
principal is a manager, the creator or the assignee of the task, and 403 otherwise.  The
id is looked up in its canonical spelling, so a spelling with upper-case digits finds the
same task.  A parameter that is not 24 hexadecimal digits is answered 500. -/
theorem getTask_access (w : World) (user : User) (id : String) :
    (isMongoId id = false → (getTask w user id).status = 500) ∧
    (isMongoId id = true →
      (findById w.tasks (canonicalId id) = none → (getTask w user id).status = 404) ∧
      (∀ task : Task, findById w.tasks (canonicalId id) = some task →
        (((getTask w user id).status = 200 ∧ (getTask w user id).task = some task) ↔
          (user.role = "manager" ∨ task.createdBy = user._id ∨
            task.assignedTo = user._id)) ∧
        (¬ (user.role = "manager" ∨ task.createdBy = user._id ∨
            task.assignedTo = user._id) →
          (getTask w user id).status = 403 ∧ (getTask w user id).task = none))) := by
  refine ⟨?_, ?_⟩
  · intro hid
    simp [getTask, castObjectId, hid]
  · intro hid
    refine ⟨?_, ?_⟩
    · intro h
      simp [getTask, castObjectId, hid, h]
    · intro task h
      by_cases hm : user.role = "manager" <;> by_cases hc : task.createdBy = user._id <;>
        by_cases ha : task.assignedTo = user._id <;>
        simp [getTask, castObjectId, hid, h, hm, hc, ha]

/-- Witness of C14: the stranger is refused the sample task, and an id that no task has
is answered 404. -/
theorem getTask_access_witness :
    (getTask exWorld exStranger exFreshId).status = 404 ∧
    (getTask exWorld exStranger exTaskId).status = 403 ∧
    (getTask exWorld exStranger exTaskId).task = none :=
  ⟨((getTask_access exWorld exStranger exFreshId).2 (by decide)).1 (by decide),
   (((getTask_access exWorld exStranger exTaskId).2 (by decide)).2 exTask (by decide)).2
     (by decide)⟩

theorem paginate_items_sublist {α : Type} (failure : String) (sorted : List α)
    (total page limit : Nat) : (paginate failure sorted total page limit).items.Sublist sorted := by
  unfold paginate
  split
  · exact List.nil_sublist _
  · simp only
    split
    · exact List.drop_sublist _ _
    · exact (List.take_sublist _ _).trans (List.drop_sublist _ _)

theorem getTasksFilter_user {user : User} (h : user.role = "user") (q : Query) :
    getTasksFilter user q =
      some { assignedTo := some user._id, status := whenTruthy q.status,
             priority := whenTruthy q.priority, search := whenTruthy q.search } := by
  simp [getTasksFilter, h]

/-- The items `getTasks` returns are stored tasks that satisfy the predicate of its query
object. -/
theorem getTasks_items_mem {e : Engine} {w : World} {user : User} {q : Query}
    {p : Task → Bool} (hp : getTasksPred e user q = some p) {t : Task}
    (ht : t ∈ (getTasks e w user q).items) : t ∈ w.tasks ∧ p t = true := by
  unfold getTasks at ht
  rw [hp] at ht
  have h1 := (paginate_items_sublist _ _ _ _ _).subset ht
  have h2 := (e.sort_perm _ _ _).subset h1
  simpa using h2

theorem pred_base {e : Engine} {f : Filter} {p : Task → Bool} (hp : f.pred e = some p)
    {t : Task} (ht : p t = true) : f.base t = true := by
  unfold Filter.pred at hp
  split at hp
  · cases hp; exact ht
  · split at hp
    · cases hp
    · cases hp
      simp only [Bool.and_eq_true] at ht
      exact ht.1

/-- C15: for a principal of role user the answer of `getTasks` does not depend on the
`assignedTo` and `createdBy` parameters of the query string, so two requests that differ
only in them get the same tasks and the same total, and every task returned is assigned
to the principal. -/
theorem getTasks_user_ignores_filters (e : Engine) (w : World) (user : User) (q : Query)
    (a c : Option String) (hrole : user.role = "user") :
    getTasks e w user { q with assignedTo := a, createdBy := c } = getTasks e w user q ∧
    ∀ t ∈ (getTasks e w user q).items, t.assignedTo = user._id := by
  constructor
  · unfold getTasks getTasksPred
    rw [getTasksFilter_user hrole, getTasksFilter_user hrole]
  · intro t ht
    cases hp : getTasksPred e user q with
    | none =>
      unfold getTasks at ht
      rw [hp] at ht
      simp at ht
    | some p =>
      have hp2 := hp
      unfold getTasksPred at hp2
      rw [getTasksFilter_user hrole] at hp2
      have hb := pred_base hp2 (getTasks_items_mem hp ht).2
      simp only [Filter.base, Bool.and_eq_true] at hb
      simpa using hb.1.1.1

/-- Witness of C15: the assignee asks for the tasks of somebody else and gets the same
answer as without the parameter. -/
theorem getTasks_user_ignores_filters_witness :
    getTasks exEngine exReadWorld exAssignee
        { exFilterQuery with assignedTo := some "cccccccccccccccccccccccc", createdBy := none }
      = getTasks exEngine exReadWorld exAssignee exFilterQuery ∧
    ∀ t ∈ (getTasks exEngine exReadWorld exAssignee exFilterQuery).items,
      t.assignedTo = exAssignee._id :=
  getTasks_user_ignores_filters exEngine exReadWorld exAssignee exFilterQuery
    (some "cccccccccccccccccccccccc") none (by decide)

theorem whenTruthy_match (p : Option String) (v : String) :
    (match whenTruthy p with
     | none => true
     | some a => v == a) = suppliedMatch p v := by
  cases p with
  | none => rfl
  | some s =>
    by_cases hs : s = ""
    · subst hs; rfl
    · have h1 : whenTruthy (some s) = some s := by simp [whenTruthy, truthy, hs]
      rw [h1]
      simp [suppliedMatch, hs]

theorem whenTruthy_idMatch (p : Option String) (v : String) :
    (match (whenTruthy p).map canonicalId with
     | none => true
     | some a => v == a) = suppliedIdMatch p v := by
  cases p with
  | none => rfl
  | some s =>
    by_cases hs : s = ""
    · subst hs; rfl
    · have h1 : whenTruthy (some s) = some s := by simp [whenTruthy, truthy, hs]
      rw [h1]
      simp [suppliedIdMatch, hs]

/-- The cast of an id filter that is well formed succeeds. -/
theorem castWhenTruthy_of_wellFormed {p : Option String}
    (h : wellFormedIdFilter p = true) :
    castWhenTruthy p = some ((whenTruthy p).map canonicalId) := by
  cases p with
  | none => rfl
  | some s =>
    by_cases hs : s = ""
    · subst hs; rfl
    · have h1 : whenTruthy (some s) = some s := by simp [whenTruthy, truthy, hs]
      have h2 : isMongoId s = true := by simpa [wellFormedIdFilter, hs] using h
      simp [castWhenTruthy, h1, castObjectId, h2]

theorem getTasksFilter_manager {user : User} (h : user.role = "manager") (q : Query)
    (ha : wellFormedIdFilter q.assignedTo = true)
    (hc : wellFormedIdFilter q.createdBy = true) :
    getTasksFilter user q =
      some { assignedTo := (whenTruthy q.assignedTo).map canonicalId,
             createdBy := (whenTruthy q.createdBy).map canonicalId,
             status := whenTruthy q.status, priority := whenTruthy q.priority,
             search := whenTruthy q.search } := by
  have h1 : (user.role == "user") = false := by rw [h]; decide
  have h2 : (user.role == "manager") = true := by rw [h]; decide
  unfold getTasksFilter
  rw [h1, h2, castWhenTruthy_of_wellFormed ha, castWhenTruthy_of_wellFormed hc]
  rfl

theorem manager_base_eq_matchesSupplied (q : Query) (t : Task) :
    ({ assignedTo := (whenTruthy q.assignedTo).map canonicalId,
       createdBy := (whenTruthy q.createdBy).map canonicalId,
       status := whenTruthy q.status, priority := whenTruthy q.priority,
       search := whenTruthy q.search } : Filter).base t = matchesSupplied q t := by
  simp only [Filter.base, matchesSupplied, whenTruthy_match, whenTruthy_idMatch]
  cases suppliedMatch q.status t.status <;> cases suppliedMatch q.priority t.priority <;>
    cases suppliedIdMatch q.assignedTo t.assignedTo <;>
    cases suppliedIdMatch q.createdBy t.createdBy <;> rfl

theorem paginate_of_pos {α : Type} (failure : String) (sorted : List α) (total : Nat)
    {page limit : Nat} (hp : 1 ≤ page) (hl : 1 ≤ limit) :
    paginate failure sorted total page limit =
      { status := 200, count := ((sorted.drop ((page - 1) * limit)).take limit).length,
        total := total, totalPages := some ((total + limit - 1) / limit),
        currentPage := page, items := (sorted.drop ((page - 1) * limit)).take limit } := by
  unfold paginate
  have h1 : ¬ (page = 0 ∧ limit ≠ 0) := by omega
  have h2 : ¬ limit = 0 := by omega
  simp only [h1, h2, if_false]

/-- C16, where the claim as worded fails: the manager supplies `assignedTo=xyz`; no task
matches, yet `getTasks` does not answer with an empty list and a total of 0: the store
cannot cast the string to an ObjectId, the query throws and the answer is 500. -/
theorem getTasks_malformed_assignee_500 :
    (getTasks exEngine exReadWorld exManager exBadAssigneeQuery).status = 500 ∧
    (getTasks exEngine exReadWorld exManager exBadAssigneeQuery).message
      = "Error fetching tasks" ∧
    exReadWorld.tasks.filter (fun t => t.assignedTo == "xyz") = [] := by
  decide

/-- C16: for a manager who supplies no search, and whose `assignedTo` and `createdBy`,
when supplied, are 24 hexadecimal digits, `getTasks` answers 200 with a page of the tasks
that match every supplied filter among status, priority, assignedTo and createdBy: the
items are cut out of a reordering of exactly the matching tasks, all of them when they
fit on the first page, and the total is the number of matching tasks.  The page and the
limit are those of the query string, 1 and 10 when it has none. -/
theorem getTasks_manager_filters (e : Engine) (w : World) (user : User) (q : Query)
    (hrole : user.role = "manager") (hsearch : truthy q.search = false)
    (hassigned : wellFormedIdFilter q.assignedTo = true)
    (hcreated : wellFormedIdFilter q.createdBy = true)
    (hp1 : 1 ≤ q.page.getD 1) (hl1 : 1 ≤ q.limit.getD 10) :
    ∃ sorted : List Task,
      sorted.Perm (w.tasks.filter (matchesSupplied q)) ∧
      (getTasks e w user q).status = 200 ∧
      (getTasks e w user q).items
        = (sorted.drop ((q.page.getD 1 - 1) * q.limit.getD 10)).take (q.limit.getD 10) ∧
      (getTasks e w user q).total = (w.tasks.filter (matchesSupplied q)).length ∧
      (∀ t ∈ (getTasks e w user q).items, t ∈ w.tasks ∧ matchesSupplied q t = true) ∧
      (q.page.getD 1 = 1 → (w.tasks.filter (matchesSupplied q)).length ≤ q.limit.getD 10 →
        (getTasks e w user q).items.Perm (w.tasks.filter (matchesSupplied q))) := by
  have hpred : getTasksPred e user q = some (matchesSupplied q) := by
    unfold getTasksPred
    rw [getTasksFilter_manager hrole q hassigned hcreated]
    simp only [Option.some_bind, Filter.pred, whenTruthy, hsearch, Bool.false_eq_true,
      if_false]
    congr 1
    funext t
    exact manager_base_eq_matchesSupplied q t
  have heq : getTasks e w user q = paginate "Error fetching tasks"
      (e.sort (q.sortBy.getD "createdAt") (q.sortOrder.getD "desc" == "desc")
        (w.tasks.filter (matchesSupplied q)))
      (w.tasks.filter (matchesSupplied q)).length (q.page.getD 1) (q.limit.getD 10) := by
    unfold getTasks
    rw [hpred]
  have hperm := e.sort_perm (q.sortBy.getD "createdAt") (q.sortOrder.getD "desc" == "desc")
    (w.tasks.filter (matchesSupplied q))
  refine ⟨_, hperm, ?_, ?_, ?_, ?_, ?_⟩
  · rw [heq, paginate_of_pos _ _ _ hp1 hl1]
  · rw [heq, paginate_of_pos _ _ _ hp1 hl1]
  · rw [heq, paginate_of_pos _ _ _ hp1 hl1]
  · intro t ht
    exact getTasks_items_mem hpred ht
  · intro h1 hle
    rw [heq, paginate_of_pos _ _ _ hp1 hl1]
    simp only [h1, Nat.sub_self, Nat.zero_mul, List.drop_zero]
    rw [List.take_of_length_le (by rw [hperm.length_eq]; exact hle)]
    exact hperm

/-- Witness of C16: the manager lists the sample store with `status=completed`,
`priority=medium` and the id of the assignee written with upper-case digits, without
`page` or `limit`. -/
theorem getTasks_manager_filters_witness :
    ∃ sorted : List Task,
      sorted.Perm (exReadWorld.tasks.filter (matchesSupplied exScenarioQuery)) ∧
      (getTasks exEngine exReadWorld exManager exScenarioQuery).status = 200 ∧
      (getTasks exEngine exReadWorld exManager exScenarioQuery).items
        = (sorted.drop ((exScenarioQuery.page.getD 1 - 1) * exScenarioQuery.limit.getD 10)).take
            (exScenarioQuery.limit.getD 10) ∧
      (getTasks exEngine exReadWorld exManager exScenarioQuery).total
        = (exReadWorld.tasks.filter (matchesSupplied exScenarioQuery)).length ∧
      (∀ t ∈ (getTasks exEngine exReadWorld exManager exScenarioQuery).items,
        t ∈ exReadWorld.tasks ∧ matchesSupplied exScenarioQuery t = true) ∧
      (exScenarioQuery.page.getD 1 = 1 →
        (exReadWorld.tasks.filter (matchesSupplied exScenarioQuery)).length
          ≤ exScenarioQuery.limit.getD 10 →
        (getTasks exEngine exReadWorld exManager exScenarioQuery).items.Perm
          (exReadWorld.tasks.filter (matchesSupplied exScenarioQuery))) :=
  getTasks_manager_filters exEngine exReadWorld exManager exScenarioQuery (by decide)
    (by decide) (by decide) (by decide) (by decide) (by decide)

theorem getTasks_of_pred {e : Engine} {w : World} {user : User} {q : Query}
    {p : Task → Bool} (hp : getTasksPred e user q = some p) :
    getTasks e w user q =
      paginate "Error fetching tasks"
        (e.sort (q.sortBy.getD "createdAt") (q.sortOrder.getD "desc" == "desc")
          (w.tasks.filter p))
        (w.tasks.filter p).length (q.page.getD 1) (q.limit.getD 10) := by
  unfold getTasks
  rw [hp]

theorem getTasks_of_none {e : Engine} {w : World} {user : User} {q : Query}
    (hp : getTasksPred e user q = none) :
    getTasks e w user q = { status := 500, message := "Error fetching tasks" } := by
  unfold getTasks
  rw [hp]

/-- C17, evaluated where it fails: the search string `a.c` is handed to the store as a
regular expression.  It is not a substring of the title `abc` nor of the description of
the sample task, yet every engine whose test of the pattern `a.c` accepts `abc` returns
that task, as the sample engine does; and a search string that the engine rejects as a
pattern is answered 500. -/
theorem getTasks_search_is_pattern :
    containsCI "a.c" exAbcTask.title = false ∧
    containsCI "a.c" exAbcTask.description = false ∧
    (getTasks exEngine exReadWorld exManager exDotQuery).status = 200 ∧
    (getTasks exEngine exReadWorld exManager exDotQuery).items = [exAbcTask] ∧
    (∀ (e : Engine) (m : String → Bool), e.regex "a.c" = some m → m "abc" = true →
      exAbcTask ∈ (getTasks e exReadWorld exManager exDotQuery).items) ∧
    (∀ (e : Engine) (s : String), s ≠ "" → e.regex s = none →
      (getTasks e exReadWorld exManager { search := some s }).status = 500) := by
  refine ⟨by decide, by decide, by decide, by decide, ?_, ?_⟩
  · intro e m hm habc
    have hf : getTasksFilter exManager exDotQuery = some { search := some "a.c" } := by
      decide
    have hp : getTasksPred e exManager exDotQuery
        = some (fun t => ({ search := some "a.c" } : Filter).base t
            && (m t.title || m t.description)) := by
      unfold getTasksPred
      rw [hf]
      simp only [Option.some_bind, Filter.pred, hm]
    rw [getTasks_of_pred hp]
    have hq : exDotQuery.page.getD 1 = 1 ∧ exDotQuery.limit.getD 10 = 10 := by decide
    rw [hq.1, hq.2, paginate_of_pos _ _ _ (le_refl 1) (by decide)]
    simp only [Nat.sub_self, Nat.zero_mul, List.drop_zero]
    have hperm := e.sort_perm (exDotQuery.sortBy.getD "createdAt")
      (exDotQuery.sortOrder.getD "desc" == "desc")
      (exReadWorld.tasks.filter (fun t => ({ search := some "a.c" } : Filter).base t
            && (m t.title || m t.description)))
    have hlen : (exReadWorld.tasks.filter (fun t => ({ search := some "a.c" } : Filter).base t
            && (m t.title || m t.description))).length ≤ 4 :=
      (List.length_filter_le _ _).trans (by decide)
    rw [List.take_of_length_le (by rw [hperm.length_eq]; omega)]
    apply hperm.symm.subset
    rw [List.mem_filter]
    refine ⟨by decide, ?_⟩
    have ht : exAbcTask.title = "abc" := rfl
    rw [ht, habc]
    rfl
  · intro e s hs hnone
    have hp : getTasksPred e exManager { search := some s } = none := by
      have hf : getTasksFilter exManager { search := some s }
          = some { search := some s } := by
        rw [getTasksFilter_manager (by decide) { search := some s } rfl rfl]
        simp [whenTruthy, truthy, hs]
      unfold getTasksPred
      rw [hf]
      simp only [Option.some_bind, Filter.pred, hnone]
    rw [getTasks_of_none hp]

theorem ceil_div_eq (n : Nat) {l : Nat} (hl : 1 ≤ l) :
    ⌈(n : ℚ) / (l : ℚ)⌉₊ = (n + l - 1) / l := by
  have hlq : (0 : ℚ) < (l : ℚ) := by exact_mod_cast hl
  apply le_antisymm
  · rw [Nat.ceil_le, div_le_iff₀ hlq]
    have h : n ≤ (n + l - 1) / l * l := by
      have h1 := Nat.div_add_mod (n + l - 1) l
      have h2 := Nat.mod_lt (n + l - 1) (show l > 0 by omega)
      have h3 : l * ((n + l - 1) / l) = (n + l - 1) / l * l := Nat.mul_comm _ _
      omega
    exact_mod_cast h
  · by_contra hlt
    push_neg at hlt
    have h4 : ⌈(n : ℚ) / (l : ℚ)⌉₊ + 1 ≤ (n + l - 1) / l := hlt
    have h5 : (n : ℚ) / (l : ℚ) ≤ (⌈(n : ℚ) / (l : ℚ)⌉₊ : ℚ) := Nat.le_ceil _
    rw [div_le_iff₀ hlq] at h5
    have h6 : n ≤ ⌈(n : ℚ) / (l : ℚ)⌉₊ * l := by exact_mod_cast h5
    have h7 : (⌈(n : ℚ) / (l : ℚ)⌉₊ + 1) * l ≤ (n + l - 1) / l * l :=
      Nat.mul_le_mul_right l h4
    have h8 : (n + l - 1) / l * l ≤ n + l - 1 := Nat.div_mul_le_self _ _
    have h9 : (⌈(n : ℚ) / (l : ℚ)⌉₊ + 1) * l = ⌈(n : ℚ) / (l : ℚ)⌉₊ * l + l := by
      ring
    omega

/-- For a page of at least 1 and a limit of at least 1, `paginate` answers with the page
of the sorted results it is given. -/
theorem paginate_isPageOf {α : Type} (failure : String) (sorted : List α) {total : Nat}
    {page limit : Nat} (ht : total = sorted.length) (hp : 1 ≤ page) (hl : 1 ≤ limit) :
    IsPageOf sorted page limit (paginate failure sorted total page limit) := by
  rw [paginate_of_pos _ _ _ hp hl]
  refine ⟨rfl, ?_, ?_, rfl, ht, ?_, rfl⟩
  · intro i hi
    simp only [List.getElem?_take, hi, if_true, List.getElem?_drop]
  · simp only [List.length_take]
    exact Nat.min_le_left _ _
  · simp only [ht, ceil_div_eq _ hl]

/-- A page of no results reports no item, a total of 0 and 0 pages. -/
theorem IsPageOf_nil {α : Type} {page limit : Nat} {r : Page α} (hl : 1 ≤ limit)
    (h : IsPageOf ([] : List α) page limit r) :
    r.status = 200 ∧ r.items = [] ∧ r.total = 0 ∧ r.totalPages = some 0 := by
  obtain ⟨h1, h2, h3, _, h5, h6, _⟩ := h
  refine ⟨h1, ?_, h5, ?_⟩
  · cases hi : r.items with
    | nil => rfl
    | cons a l =>
      have := h2 0 (by omega)
      rw [hi] at this
      simp at this
  · rw [h6]
    simp

/-- A query object whose pattern, if it has one, is accepted by the engine stands for a
predicate. -/
theorem pred_isSome {e : Engine} {f : Filter}
    (h : ∀ s, f.search = some s → (e.regex s).isSome = true) : (f.pred e).isSome = true := by
  unfold Filter.pred
  cases hs : f.search with
  | none => rfl
  | some s =>
    have h1 := h s hs
    cases hr : e.regex s with
    | none => rw [hr] at h1; cases h1
    | some m => simp only [hr, Option.isSome_some]

/-- The store accepts the query of `getTasks` when the id filters of a manager are well
formed and the engine accepts the search pattern. -/
theorem getTasksPred_isSome {e : Engine} {user : User} {q : Query}
    (hids : user.role = "manager" →
      wellFormedIdFilter q.assignedTo = true ∧ wellFormedIdFilter q.createdBy = true)
    (hsearch : ∀ s, whenTruthy q.search = some s → (e.regex s).isSome = true) :
    (getTasksPred e user q).isSome = true := by
  unfold getTasksPred
  by_cases hu : user.role = "user"
  · rw [getTasksFilter_user hu]
    exact pred_isSome hsearch
  · by_cases hm : user.role = "manager"
    · rw [getTasksFilter_manager hm q (hids hm).1 (hids hm).2]
      exact pred_isSome hsearch
    · have h1 : (user.role == "user") = false := by simpa using hu
      have h2 : (user.role == "manager") = false := by simpa using hm
      unfold getTasksFilter
      rw [h1, h2]
      exact pred_isSome hsearch

/-- The store accepts the query of `getActivityLogs` when the `taskId` filter of a
principal whose role is not user is well formed. -/
theorem activityLogsPred_isSome {w : World} {user : User} {q : Query}
    (hid : user.role ≠ "user" → wellFormedIdFilter q.taskId = true) :
    (activityLogsPred w user q).isSome = true := by
  unfold activityLogsPred
  by_cases hu : user.role = "user"
  · simp [hu]
  · have h1 : (user.role == "user") = false := by simpa using hu
    rw [h1, castWhenTruthy_of_wellFormed (hid hu)]
    cases hw : whenTruthy q.taskId <;> rfl

/-- C18, where the claim as worded fails: the manager asks for page 1 of the activity log
with `taskId=xyz`.  No entry matches, yet the reader does not succeed with a total of 0:
the store cannot cast the string to an ObjectId, the query throws and the answer is
500. -/
theorem getActivityLogs_malformed_taskId_500 :
    exBadTaskIdQuery.page = some 1 ∧ exBadTaskIdQuery.limit = some 10 ∧
    exLogWorld.logs.filter (fun l => l.taskId == "xyz") = [] ∧
    (getActivityLogs exLogWorld exManager exBadTaskIdQuery).status = 500 ∧
    (getActivityLogs exLogWorld exManager exBadTaskIdQuery).message
      = "Error fetching activity logs" := by
  decide

/-- C18: for a page of at least 1 and a limit of at least 1, each of `getTasks`,
`getMyTasks`, `getCreatedTasks` and `getActivityLogs` whose query the store accepts
answers 200 with the items at the positions `(page - 1) * limit` up to
`page * limit - 1` of its sorted matching results, at most `limit` of them, with the
number of matching results as total, the ceiling of total over limit as number of pages
and the page asked for as current page; a reader without matching results reports no
item, a total of 0 and 0 pages.  The store accepts the query of `getMyTasks` and of
`getCreatedTasks` always, that of `getTasks` when the `assignedTo` and `createdBy` a
manager supplies are 24 hexadecimal digits and the engine accepts the search pattern, and
that of `getActivityLogs` when the `taskId` supplied by a principal whose role is not
user is 24 hexadecimal digits; a query the store rejects is answered 500. -/
theorem paginated_readers (e : Engine) (w : World) (user : User) (q : Query)
    (page limit : Nat) (hpage : q.page = some page) (hlimit : q.limit = some limit)
    (hp1 : 1 ≤ page) (hl1 : 1 ≤ limit) :
    (∀ p, getTasksPred e user q = some p →
      IsPageOf (e.sort (q.sortBy.getD "createdAt") (q.sortOrder.getD "desc" == "desc")
        (w.tasks.filter p)) page limit (getTasks e w user q) ∧
      (getTasks e w user q).total = (w.tasks.filter p).length) ∧
    (IsPageOf (e.sort "createdAt" true (w.tasks.filter (myTasksFilter user q).base))
        page limit (getMyTasks e w user q) ∧
      (getMyTasks e w user q).total = (w.tasks.filter (myTasksFilter user q).base).length) ∧
    (IsPageOf (e.sort "createdAt" true (w.tasks.filter (createdTasksFilter user q).base))
        page limit (getCreatedTasks e w user q) ∧
      (getCreatedTasks e w user q).total
        = (w.tasks.filter (createdTasksFilter user q).base).length) ∧
    (∀ p, activityLogsPred w user q = some p →
      IsPageOf (w.logs.filter p).reverse page limit (getActivityLogs w user q)) ∧
    ((user.role = "manager" →
        wellFormedIdFilter q.assignedTo = true ∧ wellFormedIdFilter q.createdBy = true) →
      (∀ s, whenTruthy q.search = some s → (e.regex s).isSome = true) →
      (getTasksPred e user q).isSome = true) ∧
    ((user.role ≠ "user" → wellFormedIdFilter q.taskId = true) →
      (activityLogsPred w user q).isSome = true) ∧
    (getTasksPred e user q = none → (getTasks e w user q).status = 500) ∧
    (activityLogsPred w user q = none → (getActivityLogs w user q).status = 500) ∧
    (∀ (α : Type) (r : Page α), IsPageOf ([] : List α) page limit r →
      r.status = 200 ∧ r.items = [] ∧ r.total = 0 ∧ r.totalPages = some 0) := by
  have hpg : q.page.getD 1 = page := by rw [hpage]; rfl
  have hlm : q.limit.getD 10 = limit := by rw [hlimit]; rfl
  have hlm2 : q.limit.getD 20 = limit := by rw [hlimit]; rfl
  refine ⟨?_, ?_, ?_, ?_, getTasksPred_isSome, activityLogsPred_isSome, ?_, ?_,
    fun α r h => IsPageOf_nil hl1 h⟩
  · intro p hp
    rw [getTasks_of_pred hp, hpg, hlm]
    refine ⟨paginate_isPageOf _ _ (e.sort_perm _ _ _).length_eq.symm hp1 hl1, ?_⟩
    rw [paginate_of_pos _ _ _ hp1 hl1]
  · unfold getMyTasks
    rw [hpg, hlm]
    refine ⟨paginate_isPageOf _ _ (e.sort_perm _ _ _).length_eq.symm hp1 hl1, ?_⟩
    rw [paginate_of_pos _ _ _ hp1 hl1]
  · unfold getCreatedTasks
    rw [hpg, hlm]
    refine ⟨paginate_isPageOf _ _ (e.sort_perm _ _ _).length_eq.symm hp1 hl1, ?_⟩
    rw [paginate_of_pos _ _ _ hp1 hl1]
  · intro p hp
    unfold getActivityLogs
    rw [hp]
    simp only
    rw [hpg, hlm2]
    exact paginate_isPageOf _ _ (List.length_reverse _).symm hp1 hl1
  · intro hp
    rw [getTasks_of_none hp]
  · intro hp
    unfold getActivityLogs
    rw [hp]

/-- Witness of C18: page 2 of size 1 of the tasks assigned to the sample assignee. -/
theorem paginated_readers_witness :
    IsPageOf (exEngine.sort "createdAt" true
        (exReadWorld.tasks.filter (myTasksFilter exAssignee exPageQuery).base))
      2 1 (getMyTasks exEngine exReadWorld exAssignee exPageQuery) ∧
    (getMyTasks exEngine exReadWorld exAssignee exPageQuery).total
      = (exReadWorld.tasks.filter (myTasksFilter exAssignee exPageQuery).base).length :=
  (paginated_readers exEngine exReadWorld exAssignee exPageQuery 2 1 (by decide) (by decide)
    (by decide) (by decide)).2.1

/-! ## Statistics -/

theorem lookup_map_pair (f : String → Nat) (d : List String) (k : String) :
    (d.map (fun v => (v, f v))).lookup k = if k ∈ d then some (f k) else none := by
  induction d with
  | nil => rfl
  | cons a l ih =>
    rw [List.map_cons, List.lookup_cons]
    by_cases h : k = a
    · subst h
      simp
    · have h2 : (k == a) = false := by simpa using h
      rw [h2]
      simp only [ih, List.mem_cons, h, false_or]

theorem setKey_of_mem {o : List (String × Nat)} {k : String} (v : Nat)
    (hk : k ∈ o.map (fun p => p.1)) :
    setKey o k v = o.map (fun p => if p.1 == k then (p.1, v) else p) := by
  unfold setKey
  have h : o.any (fun p => p.1 == k) = true := by
    rw [List.any_eq_true]
    obtain ⟨p, hp, hpk⟩ := List.mem_map.mp hk
    exact ⟨p, hp, by simpa using hpk⟩
  rw [h]
  rfl

theorem setKey_keys {o : List (String × Nat)} {k : String} (v : Nat)
    (hk : k ∈ o.map (fun p => p.1)) :
    (setKey o k v).map (fun p => p.1) = o.map (fun p => p.1) := by
  rw [setKey_of_mem v hk, List.map_map]
  apply List.map_congr_left
  intro p _
  by_cases h : p.1 = k <;> simp [h]

/-- The loop that fills the counts, for groups of distinct keys that are all keys of the
object: every entry gets the count of its group, or keeps its value when it has none. -/
theorem fillCounts_eq (groups : List (String × Nat)) :
    ∀ o : List (String × Nat), (groups.map (fun g => g.1)).Nodup →
      (∀ g ∈ groups, g.1 ∈ o.map (fun p => p.1)) →
      fillCounts o groups = o.map (fun p => (p.1, (groups.lookup p.1).getD p.2)) := by
  induction groups with
  | nil =>
    intro o _ _
    simp [fillCounts]
  | cons g gs ih =>
    intro o hnd hmem
    obtain ⟨k, v⟩ := g
    simp only [List.map_cons, List.nodup_cons] at hnd
    have hk : k ∈ o.map (fun p => p.1) := hmem (k, v) (List.mem_cons_self _ _)
    have hstep : fillCounts o ((k, v) :: gs) = fillCounts (setKey o k v) gs := rfl
    rw [hstep, ih (setKey o k v) hnd.2
      (fun g hg => by rw [setKey_keys v hk]; exact hmem g (List.mem_cons_of_mem _ hg))]
    rw [setKey_of_mem v hk, List.map_map]
    apply List.map_congr_left
    intro p _
    by_cases h : p.1 = k
    · have hnone : gs.lookup k = none := by
        rw [List.lookup_eq_none_iff]
        intro q hq
        have hne : k ≠ q.1 := by
          intro hqk
          apply hnd.1
          rw [hqk]
          exact List.mem_map_of_mem _ hq
        simpa using hne
      simp [h, List.lookup_cons, hnone]
    · have h2 : (p.1 == k) = false := by simpa using h
      simp [h, h2, List.lookup_cons]

/-- The counts `getTaskStats` computes from the values of a field: one entry for every
key of the enum, with the number of occurrences of the key. -/
theorem fillCounts_groupCount (keys : List String) (values : List String)
    (hv : ∀ v ∈ values, v ∈ keys) :
    fillCounts (keys.map (fun k => (k, 0))) (groupCount values)
      = keys.map (fun k => (k, values.count k)) := by
  rw [fillCounts_eq]
  · rw [List.map_map]
    apply List.map_congr_left
    intro k _
    simp only [Function.comp, groupCount, lookup_map_pair, List.mem_dedup]
    by_cases h : k ∈ values
    · simp [h]
    · simp [h, List.count_eq_zero.mpr h]
  · simp only [groupCount, List.map_map]
    have : ((fun g : String × Nat => g.1) ∘ fun v => (v, List.count v values)) = id := rfl
    rw [this, List.map_id]
    exact List.nodup_dedup _
  · intro g hg
    simp only [groupCount, List.mem_map, List.mem_dedup] at hg
    obtain ⟨v, hv1, rfl⟩ := hg
    simp only [List.map_map]
    have : ((fun p : String × Nat => p.1) ∘ fun k => (k, 0)) = id := rfl
    rw [this, List.map_id]
    exact hv v hv1

theorem count_statusValues_sum (values : List String) (hv : ∀ v ∈ values, v ∈ statusValues) :
    values.count "todo" + values.count "in-progress" + values.count "review"
      + values.count "completed" = values.length := by
  induction values with
  | nil => rfl
  | cons a l ih =>
    have hl := ih (fun v h => hv v (List.mem_cons_of_mem _ h))
    have ha : a ∈ statusValues := hv a (List.mem_cons_self _ _)
    simp only [List.count_cons, List.length_cons]
    simp only [statusValues, List.mem_cons, List.mem_singleton, List.not_mem_nil,
      or_false] at ha
    rcases ha with h | h | h | h <;> subst h <;> simp <;> omega

theorem inScope_eq_statsScope (user : User) (t : Task) : inScope user t = statsScope user t := by
  unfold inScope statsScope
  by_cases hu : user.role = "user"
  · simp [hu]
  · by_cases hm : user.role = "manager"
    · simp [hm]
    · simp [hu, hm]

theorem count_map_eq_filter_length {α : Type} (f : α → String) (l : List α) (k : String) :
    (l.map f).count k = (l.filter (fun x => f x == k)).length := by
  rw [List.count, List.countP_map, List.countP_eq_length_filter]
  rfl

/-- C19: over a store whose tasks have a status and a priority of the enums,
`getTaskStats` answers with `byStatus` holding exactly the keys todo, in-progress, review
and completed and `byPriority` exactly the keys low, medium, high and urgent, each with
the number of in-scope tasks of that status or priority, and with the number of in-scope
tasks as total; in scope are the tasks assigned to a principal of role user, the tasks
created by a principal of role manager, and every task for any other role. -/
theorem getTaskStats_counts (w : World) (user : User)
    (hvalid : ∀ t ∈ w.tasks, t.status ∈ statusValues ∧ t.priority ∈ priorityValues) :
    (getTaskStats w user).byStatus = statusValues.map (fun s =>
      (s, ((w.tasks.filter (inScope user)).filter (fun t => t.status == s)).length)) ∧
    (getTaskStats w user).byPriority = priorityValues.map (fun p =>
      (p, ((w.tasks.filter (inScope user)).filter (fun t => t.priority == p)).length)) ∧
    (getTaskStats w user).total = (w.tasks.filter (inScope user)).length ∧
    (user.role = "user" → ∀ t, inScope user t = (t.assignedTo == user._id)) ∧
    (user.role = "manager" → ∀ t, inScope user t = (t.createdBy == user._id)) ∧
    (user.role ≠ "user" → user.role ≠ "manager" → ∀ t, inScope user t = true) := by
  have hsc : inScope user = statsScope user := funext (inScope_eq_statsScope user)
  have hst : ∀ v ∈ (w.tasks.filter (statsScope user)).map (fun t => t.status),
      v ∈ statusValues := by
    intro v hv
    obtain ⟨t, ht, rfl⟩ := List.mem_map.mp hv
    exact (hvalid t (List.mem_filter.mp ht).1).1
  have hpr : ∀ v ∈ (w.tasks.filter (statsScope user)).map (fun t => t.priority),
      v ∈ priorityValues := by
    intro v hv
    obtain ⟨t, ht, rfl⟩ := List.mem_map.mp hv
    exact (hvalid t (List.mem_filter.mp ht).1).2
  have h1 := fillCounts_groupCount statusValues _ hst
  have h2 := fillCounts_groupCount priorityValues _ hpr
  have e1 : (getTaskStats w user).byStatus = fillCounts (statusValues.map (fun k => (k, 0)))
      (groupCount ((w.tasks.filter (statsScope user)).map (fun t => t.status))) := rfl
  have e2 : (getTaskStats w user).byPriority = fillCounts (priorityValues.map (fun k => (k, 0)))
      (groupCount ((w.tasks.filter (statsScope user)).map (fun t => t.priority))) := rfl
  have e3 : (getTaskStats w user).total
      = ((getTaskStats w user).byStatus.map (fun p => p.2)).foldl (fun a b => a + b) 0 := rfl
  refine ⟨?_, ?_, ?_, ?_, ?_, ?_⟩
  · rw [e1, h1, hsc]
    apply List.map_congr_left
    intro s _
    rw [count_map_eq_filter_length]
  · rw [e2, h2, hsc]
    apply List.map_congr_left
    intro s _
    rw [count_map_eq_filter_length]
  · rw [e3, e1, h1, hsc]
    have := count_statusValues_sum _ hst
    simp only [statusValues, List.map_cons, List.map_nil, List.foldl_cons, List.foldl_nil,
      Nat.zero_add, List.length_map] at this ⊢
    exact this
  · intro h t
    simp [inScope, h]
  · intro h t
    simp [inScope, h]
  · intro h1 h2 t
    simp [inScope, h1, h2]

/-- Witness of C19: the statistics of the manager over the sample store. -/
theorem getTaskStats_counts_witness :
    (getTaskStats exReadWorld exManager).byStatus = statusValues.map (fun s =>
      (s, ((exReadWorld.tasks.filter (inScope exManager)).filter
        (fun t => t.status == s)).length)) ∧
    (getTaskStats exReadWorld exManager).total
      = (exReadWorld.tasks.filter (inScope exManager)).length :=
  ⟨(getTaskStats_counts exReadWorld exManager (by decide)).1,
   (getTaskStats_counts exReadWorld exManager (by decide)).2.2.1⟩

/-! ## The activity log -/

/-- An accepted `updateTaskStatus` carried a status, and its effect is: the document with
the new status is saved, one log entry is written and one event is emitted. -/
theorem updateTaskStatus_of_ok {w : World} {req : Req} {task : Task}
    (hfind : findById w.tasks req.id = some task)
    (hok : (updateTaskStatus w req).2.status = 200) :
    ∃ s, req.body.status = some s ∧
      updateTaskStatus w req =
        ({ tasks := save w.tasks (statusUpdatedTask task s req.now),
           logs := createActivityLog w.logs req.logFails
             (if s == "completed" then "completed" else "status_changed")
             (statusUpdatedTask task s req.now) req.user._id (Snapshot.status task.status)
             (Snapshot.status s)
             ("Task status changed from \"" ++ task.status ++ "\" to \"" ++ s ++ "\"") req.ip,
           events := emit w.events req.io
             (Event.taskStatusUpdated (statusUpdatedTask task s req.now)._id s) },
         { status := 200, message := "Task status updated successfully",
           task := some (statusUpdatedTask task s req.now) }) := by
  unfold updateTaskStatus at hok ⊢
  cases hs : req.body.status with
  | none => simp [hs] at hok
  | some s =>
    refine ⟨s, rfl, ?_⟩
    simp only [hs, hfind] at hok ⊢
    split at hok
    · simp at hok
    · rename_i h1
      rw [if_neg h1]
      split at hok
      · simp at hok
      · rename_i h2
        rw [if_neg h2]
        rfl

theorem createActivityLog_extends (logs : List ActivityLog) (fails : Bool) (action : String)
    (task : Task) (userId : String) (pv nv : Snapshot) (details ip : String) :
    ExtendsByAtMostOne logs
      (createActivityLog logs fails action task userId pv nv details ip) := by
  unfold createActivityLog
  cases fails
  · exact ⟨[_], rfl, le_refl _⟩
  · exact ⟨[], by simp, by simp⟩

theorem extends_refl (logs : List ActivityLog) : ExtendsByAtMostOne logs logs :=
  ⟨[], by simp, by simp⟩

theorem createTask_extends (w : World) (req : Req) (errors : List String) :
    ExtendsByAtMostOne w.logs (createTask w req errors).1.logs := by
  unfold createTask
  split
  · exact extends_refl _
  · simp only
    split
    · exact extends_refl _
    · exact createActivityLog_extends _ _ _ _ _ _ _ _ _

theorem updateTask_extends (w : World) (req : Req) (errors : List String) :
    ExtendsByAtMostOne w.logs (updateTask w req errors).1.logs := by
  unfold updateTask
  split
  · exact extends_refl _
  · split
    · exact extends_refl _
    · dsimp only
      split
      · exact extends_refl _
      · exact createActivityLog_extends _ _ _ _ _ _ _ _ _

theorem updateTaskStatus_extends (w : World) (req : Req) :
    ExtendsByAtMostOne w.logs (updateTaskStatus w req).1.logs := by
  by_cases hok : (updateTaskStatus w req).2.status = 200
  · cases hf : findById w.tasks req.id with
    | none =>
      unfold updateTaskStatus at hok
      simp only [hf] at hok
      split at hok
      · simp at hok
      · split at hok <;> simp at hok
    | some task =>
      obtain ⟨s, _, heq⟩ := updateTaskStatus_of_ok hf hok
      rw [heq]
      exact createActivityLog_extends _ _ _ _ _ _ _ _ _
  · unfold updateTaskStatus at hok ⊢
    split
    · exact extends_refl _
    · rename_i s hs
      simp only [hs] at hok
      split
      · exact extends_refl _
      · rename_i h1
        rw [if_neg h1] at hok
        split
        · exact extends_refl _
        · rename_i task hf
          simp only [hf] at hok
          dsimp only at hok ⊢
          by_cases h2 : (!(task.assignedTo == req.user._id) && !(req.user.role == "manager")) = true
          · rw [if_pos h2]
            exact extends_refl _
          · rw [if_neg h2] at hok
            exact absurd rfl hok

theorem deleteTask_extends (w : World) (req : Req) :
    ExtendsByAtMostOne w.logs (deleteTask w req).1.logs := by
  unfold deleteTask
  split
  · exact extends_refl _
  · dsimp only
    split
    · exact extends_refl _
    · exact createActivityLog_extends _ _ _ _ _ _ _ _ _

/-- C20, where the claim as worded fails: the assignee moves a sample task to review while
the write to the activity log fails; the request is answered 200 and the new status is
stored, but the log has not grown. -/
theorem updateTaskStatus_succeeds_without_entry :
    (updateTaskStatus exWorld exReviewLogFailReq).2.status = 200 ∧
    (findById (updateTaskStatus exWorld exReviewLogFailReq).1.tasks exTaskId).map
      (fun t => t.status) = some "review" ∧
    (updateTaskStatus exWorld exReviewLogFailReq).1.logs = exWorld.logs := by
  decide

/-- C20: each accepted `createTask`, `updateTask`, `updateTaskStatus` and `deleteTask`
whose log write succeeds appends exactly one entry to the activity log, with the
requesting principal as `performedBy` and the title of the task as `taskTitle`; a request
whose log write fails appends none; and whatever the outcome of a request, the log after
it is the log before it with at most one entry added at its end, so no earlier entry is
changed or removed. -/
theorem activity_log_append_only (w : World) (req : Req) (errors : List String) :
    (req.logFails = false → (createTask w req errors).2.status = 201 →
      ∃ (e : ActivityLog) (t : Task), (createTask w req errors).2.task = some t ∧
        (createTask w req errors).1.logs = w.logs ++ [e] ∧
        e.performedBy = req.user._id ∧ e.taskTitle = t.title ∧ e.taskId = t._id) ∧
    (req.logFails = false → (updateTask w req errors).2.status = 200 →
      ∃ (e : ActivityLog) (t : Task), (updateTask w req errors).2.task = some t ∧
        (updateTask w req errors).1.logs = w.logs ++ [e] ∧
        e.performedBy = req.user._id ∧ e.taskTitle = t.title ∧ e.taskId = t._id) ∧
    (req.logFails = false → (updateTaskStatus w req).2.status = 200 →
      ∃ (e : ActivityLog) (t : Task), (updateTaskStatus w req).2.task = some t ∧
        (updateTaskStatus w req).1.logs = w.logs ++ [e] ∧
        e.performedBy = req.user._id ∧ e.taskTitle = t.title ∧ e.taskId = t._id) ∧
    (req.logFails = false → (deleteTask w req).2.status = 200 →
      ∃ (e : ActivityLog) (t : Task), findById w.tasks req.id = some t ∧
        (deleteTask w req).1.logs = w.logs ++ [e] ∧
        e.performedBy = req.user._id ∧ e.taskTitle = t.title ∧ e.taskId = t._id) ∧
    (req.logFails = true →
      (createTask w req errors).1.logs = w.logs ∧ (updateTask w req errors).1.logs = w.logs ∧
      (updateTaskStatus w req).1.logs = w.logs ∧ (deleteTask w req).1.logs = w.logs) ∧
    ExtendsByAtMostOne w.logs (createTask w req errors).1.logs ∧
    ExtendsByAtMostOne w.logs (updateTask w req errors).1.logs ∧
    ExtendsByAtMostOne w.logs (updateTaskStatus w req).1.logs ∧
    ExtendsByAtMostOne w.logs (deleteTask w req).1.logs := by
  refine ⟨?_, ?_, ?_, ?_, ?_, createTask_extends w req errors, updateTask_extends w req errors,
    updateTaskStatus_extends w req, deleteTask_extends w req⟩
  · intro hlog hok
    obtain ⟨_, ti, de, a, _, _, _, heq⟩ := createTask_of_ok hok
    rw [heq]
    simp only [createActivityLog, hlog, Bool.false_eq_true, if_false]
    exact ⟨_, _, rfl, rfl, rfl, rfl, rfl⟩
  · intro hlog hok
    cases hf : findById w.tasks req.id with
    | none =>
      unfold updateTask at hok
      simp only [hf] at hok
      split at hok <;> simp at hok
    | some task =>
      obtain ⟨_, heq⟩ := updateTask_of_ok hf hok
      rw [heq]
      simp only [createActivityLog, hlog, Bool.false_eq_true, if_false]
      exact ⟨_, _, rfl, rfl, rfl, rfl, rfl⟩
  · intro hlog hok
    cases hf : findById w.tasks req.id with
    | none =>
      unfold updateTaskStatus at hok
      simp only [hf] at hok
      split at hok
      · simp at hok
      · split at hok <;> simp at hok
    | some task =>
      obtain ⟨s, _, heq⟩ := updateTaskStatus_of_ok hf hok
      rw [heq]
      simp only [createActivityLog, hlog, Bool.false_eq_true, if_false]
      exact ⟨_, _, rfl, rfl, rfl, rfl, rfl⟩
  · intro hlog hok
    cases hf : findById w.tasks req.id with
    | none => simp [deleteTask, hf] at hok
    | some task =>
      unfold deleteTask at hok ⊢
      simp only [hf] at hok ⊢
      split at hok
      · simp at hok
      · rename_i hc
        rw [if_neg hc]
        simp only [createActivityLog, hlog, Bool.false_eq_true, if_false]
        exact ⟨_, _, rfl, rfl, rfl, rfl, rfl⟩
  · intro hlog
    exact ⟨createTask_logs_of_logFails w req errors hlog,
      updateTask_logs_of_logFails w req errors hlog,
      updateTaskStatus_logs_of_logFails w req hlog, deleteTask_logs_of_logFails w req hlog⟩

/-- Witness of C20: the assignee moves a sample task to review; one entry is appended. -/
theorem activity_log_append_only_witness :
    ∃ (e : ActivityLog) (t : Task), (updateTaskStatus exWorld exReviewReq).2.task = some t ∧
      (updateTaskStatus exWorld exReviewReq).1.logs = exWorld.logs ++ [e] ∧
      e.performedBy = exReviewReq.user._id ∧ e.taskTitle = t.title ∧ e.taskId = t._id :=
  (activity_log_append_only exWorld exReviewReq []).2.2.1 (by decide) (by decide)

/-! ## Denied requests and failing log writes -/

theorem updateTask_unchanged_of_not_ok (w : World) (req : Req) (errors : List String)
    (h : (updateTask w req errors).2.status ≠ 200) : (updateTask w req errors).1 = w := by
  unfold updateTask at h ⊢
  split
  · rfl
  · rename_i he
    rw [if_neg he] at h
    split
    · rfl
    · rename_i task hf
      simp only [hf] at h
      dsimp only at h ⊢
      split
      · rfl
      · rename_i hc
        rw [if_neg hc] at h
        exact absurd rfl h

theorem updateTaskStatus_unchanged_of_not_ok (w : World) (req : Req)
    (h : (updateTaskStatus w req).2.status ≠ 200) : (updateTaskStatus w req).1 = w := by
  unfold updateTaskStatus at h ⊢
  split
  · rfl
  · rename_i s hs
    simp only [hs] at h
    split
    · rfl
    · rename_i h1
      rw [if_neg h1] at h
      split
      · rfl
      · rename_i task hf
        simp only [hf] at h
        dsimp only at h ⊢
        by_cases h2 : (!(task.assignedTo == req.user._id) && !(req.user.role == "manager")) = true
        · rw [if_pos h2]
        · rw [if_neg h2] at h
          exact absurd rfl h

theorem deleteTask_unchanged_of_not_ok (w : World) (req : Req)
    (h : (deleteTask w req).2.status ≠ 200) : (deleteTask w req).1 = w := by
  unfold deleteTask at h ⊢
  split
  · rfl
  · rename_i task hf
    simp only [hf] at h
    dsimp only at h ⊢
    split
    · rfl
    · rename_i hc
      rw [if_neg hc] at h
      exact absurd rfl h

theorem routeDelete_unchanged_of_not_ok (w : World) (req : Req)
    (h : (routeDelete w req).2.status ≠ 200) : (routeDelete w req).1 = w := by
  unfold routeDelete at h ⊢
  split
  · rfl
  · rename_i ha
    simp only [ha] at h
    exact deleteTask_unchanged_of_not_ok w req h

/-- C21: a request to `updateTaskStatus`, `deleteTask` or `updateTask`, or to the routes
that run them, that is answered 404 or 403 leaves the whole state as it was: the task
store is unchanged, nothing is added to the activity log and no event is emitted. -/
theorem denied_requests_change_nothing (isISO8601 : String → Bool) (w : World) (req : Req)
    (errors : List String) :
    (((updateTaskStatus w req).2.status = 404 ∨ (updateTaskStatus w req).2.status = 403) →
      (updateTaskStatus w req).1 = w) ∧
    (((deleteTask w req).2.status = 404 ∨ (deleteTask w req).2.status = 403) →
      (deleteTask w req).1 = w) ∧
    (((updateTask w req errors).2.status = 404 ∨ (updateTask w req errors).2.status = 403) →
      (updateTask w req errors).1 = w) ∧
    (((routeDelete w req).2.status = 404 ∨ (routeDelete w req).2.status = 403) →
      (routeDelete w req).1 = w) ∧
    (((routePut isISO8601 w req).2.status = 404 ∨ (routePut isISO8601 w req).2.status = 403) →
      (routePut isISO8601 w req).1 = w) := by
  refine ⟨fun h => ?_, fun h => ?_, fun h => ?_, fun h => ?_, fun h => ?_⟩
  · exact updateTaskStatus_unchanged_of_not_ok w req (by rcases h with h | h <;> rw [h] <;> decide)
  · exact deleteTask_unchanged_of_not_ok w req (by rcases h with h | h <;> rw [h] <;> decide)
  · exact updateTask_unchanged_of_not_ok w req errors
      (by rcases h with h | h <;> rw [h] <;> decide)
  · exact routeDelete_unchanged_of_not_ok w req (by rcases h with h | h <;> rw [h] <;> decide)
  · exact updateTask_unchanged_of_not_ok w _ _ (by
      unfold routePut at h
      rcases h with h | h <;> rw [h] <;> decide)

/-- Witness of C21: the stranger is refused the completion of a sample task through the
status route, and the state is the sample state still. -/
theorem denied_requests_change_nothing_witness :
    (updateTaskStatus exWorld exStrangerCompleteReq).2.status = 403 ∧
    (updateTaskStatus exWorld exStrangerCompleteReq).1 = exWorld :=
  ⟨by decide,
   (denied_requests_change_nothing (fun _ => true) exWorld exStrangerCompleteReq []).1
     (Or.inr (by decide))⟩

theorem createActivityLog_fails (logs : List ActivityLog) (action : String) (task : Task)
    (userId : String) (pv nv : Snapshot) (details ip : String) :
    createActivityLog logs true action task userId pv nv details ip = logs := rfl

/-- C22: when `ActivityLog.create` throws, `createActivityLog` returns without an error
and leaves the log as it was, and each of `createTask`, `updateTask`, `updateTaskStatus`
and `deleteTask` gives the same answer, the same task store and the same events as when
the log write succeeds. -/
theorem log_failure_is_not_fatal (w : World) (req : Req) (errors : List String) :
    SameButLog w (createTask w { req with logFails := true } errors)
      (createTask w { req with logFails := false } errors) ∧
    SameButLog w (updateTask w { req with logFails := true } errors)
      (updateTask w { req with logFails := false } errors) ∧
    SameButLog w (updateTaskStatus w { req with logFails := true })
      (updateTaskStatus w { req with logFails := false }) ∧
    SameButLog w (deleteTask w { req with logFails := true })
      (deleteTask w { req with logFails := false }) := by
  refine ⟨?_, ?_, ?_, ?_⟩
  · unfold SameButLog createTask
    split
    · exact ⟨rfl, rfl, rfl, rfl⟩
    · dsimp only
      split
      · exact ⟨rfl, rfl, rfl, rfl⟩
      · exact ⟨rfl, rfl, rfl, rfl⟩
  · unfold SameButLog updateTask
    split
    · exact ⟨rfl, rfl, rfl, rfl⟩
    · dsimp only
      split
      · exact ⟨rfl, rfl, rfl, rfl⟩
      · split
        · exact ⟨rfl, rfl, rfl, rfl⟩
        · exact ⟨rfl, rfl, rfl, rfl⟩
  · unfold SameButLog updateTaskStatus
    dsimp only
    split
    · exact ⟨rfl, rfl, rfl, rfl⟩
    · split
      · exact ⟨rfl, rfl, rfl, rfl⟩
      · split
        · exact ⟨rfl, rfl, rfl, rfl⟩
        · split
          · exact ⟨rfl, rfl, rfl, rfl⟩
          · exact ⟨rfl, rfl, rfl, rfl⟩
  · unfold SameButLog deleteTask
    dsimp only
    split
    · exact ⟨rfl, rfl, rfl, rfl⟩
    · split
      · exact ⟨rfl, rfl, rfl, rfl⟩
      · exact ⟨rfl, rfl, rfl, rfl⟩

/-! ## The log reader, the status entry and the update route -/

/-- C23, evaluated where it fails: the assignee, of role user, asks for the log entries of
`exTask` only; both sample tasks are assigned to them, and the answer holds the entry of
`exDoneTask` as well, the same answer as without the `taskId` parameter. -/
theorem getActivityLogs_user_drops_taskId :
    exAssignee.role = "user" ∧
    exTaskIdQuery.taskId = some exTaskId ∧
    (getActivityLogs exLogWorld exAssignee exTaskIdQuery).status = 200 ∧
    (getActivityLogs exLogWorld exAssignee exTaskIdQuery).items = [exLogDone, exLogTask] ∧
    exLogDone.taskId ≠ exTaskId ∧
    getActivityLogs exLogWorld exAssignee exTaskIdQuery
      = getActivityLogs exLogWorld exAssignee { } := by
  decide

/-- For a principal of role user the answer of `getActivityLogs` does not depend on the
`taskId` parameter, and every entry returned belongs to a task assigned to the
principal. -/
theorem getActivityLogs_user (w : World) (user : User) (q : Query) (id : Option String)
    (hrole : user.role = "user") :
    getActivityLogs w user { q with taskId := id } = getActivityLogs w user q ∧
    ∀ l ∈ (getActivityLogs w user q).items,
      ∃ t ∈ w.tasks, t.assignedTo = user._id ∧ t._id = l.taskId := by
  have hp : ∀ q0 : Query, activityLogsPred w user q0 = some (fun l =>
      ((w.tasks.filter (fun t => t.assignedTo == user._id)).map (fun t => t._id)).contains
        l.taskId) := by
    intro q0
    simp [activityLogsPred, hrole]
  constructor
  · unfold getActivityLogs
    rw [hp, hp]
  · intro l hl
    unfold getActivityLogs at hl
    rw [hp] at hl
    have h1 := (paginate_items_sublist _ _ _ _ _).subset hl
    rw [List.mem_reverse, List.mem_filter] at h1
    have h2 : l.taskId ∈ (w.tasks.filter (fun t => t.assignedTo == user._id)).map
        (fun t => t._id) := by simpa using h1.2
    obtain ⟨t, ht, hid⟩ := List.mem_map.mp h2
    obtain ⟨ht1, ha⟩ := List.mem_filter.mp ht
    exact ⟨t, ht1, by simpa using ha, hid⟩

/-- C24: an accepted `updateTaskStatus` to the status `s` of a task whose status was `p`,
with a log write that succeeds and `req.io` set, appends one entry whose action is
`completed` when `s` is `completed` and `status_changed` otherwise, whose `previousValue`
is the status `p` and whose `newValue` is the status `s`, and emits one event
`taskStatusUpdated` that carries the id of the task and `s` and nothing else. -/
theorem updateTaskStatus_entry_and_event (w : World) (req : Req) (task : Task) (s : String)
    (hfind : findById w.tasks req.id = some task) (hs : req.body.status = some s)
    (hok : (updateTaskStatus w req).2.status = 200)
    (hlog : req.logFails = false) (hio : req.io = true) :
    ∃ e : ActivityLog,
      (updateTaskStatus w req).1.logs = w.logs ++ [e] ∧
      e.action = (if s = "completed" then "completed" else "status_changed") ∧
      e.previousValue = Snapshot.status task.status ∧
      e.newValue = Snapshot.status s ∧
      (updateTaskStatus w req).1.events
        = w.events ++ [Event.taskStatusUpdated task._id s] := by
  obtain ⟨s2, hs2, heq⟩ := updateTaskStatus_of_ok hfind hok
  rw [hs] at hs2
  cases hs2
  rw [heq]
  simp only [createActivityLog, hlog, emit, hio, Bool.false_eq_true, if_false, if_true]
  refine ⟨_, rfl, ?_, rfl, rfl, ?_⟩
  · by_cases hc : s = "completed" <;> simp [hc]
  · have hid : (statusUpdatedTask task s req.now)._id = task._id := by
      unfold statusUpdatedTask
      split <;> rfl
    rw [hid]

/-- Witness of C24: the assignee moves a sample task to review. -/
theorem updateTaskStatus_entry_and_event_witness :
    ∃ e : ActivityLog,
      (updateTaskStatus exWorld exReviewReq).1.logs = exWorld.logs ++ [e] ∧
      e.action = (if "review" = "completed" then "completed" else "status_changed") ∧
      e.previousValue = Snapshot.status exTask.status ∧
      e.newValue = Snapshot.status "review" ∧
      (updateTaskStatus exWorld exReviewReq).1.events
        = exWorld.events ++ [Event.taskStatusUpdated exTask._id "review"] :=
  updateTaskStatus_entry_and_event exWorld exReviewReq exTask "review" (by decide) (by decide)
    (by decide) (by decide) (by decide)

/-- On the update route a principal who is the assignee of the task but neither its
creator nor a manager is never answered 200, whatever the body. -/
theorem routePut_assignee_never_ok (isISO8601 : String → Bool) (w : World) (req : Req)
    (task : Task) (hfind : findById w.tasks req.id = some task)
    (hA : task.assignedTo = req.user._id) (hC : task.createdBy ≠ req.user._id)
    (hM : req.user.role ≠ "manager") :
    (routePut isISO8601 w req).2.status ≠ 200 := by
  by_cases hv : taskValidation isISO8601 req.body = []
  · obtain ⟨ti, de, a, hti, hde, ha⟩ := taskValidation_required hv
    have hk : req.body.keys.any (fun key => key != "status") = true := by
      rw [List.any_eq_true]
      refine ⟨"title", ?_, by decide⟩
      simp [Body.keys, hti]
    have h1 : (req.user.role == "manager") = false := by simpa using hM
    have h2 : (task.createdBy == req.user._id) = false := by simpa using hC
    have h3 : (task.assignedTo == req.user._id) = true := by simpa using hA
    have h403 : routePut isISO8601 w req
        = (w, { status := 403, message := "You can only update the task status" }) := by
      unfold routePut updateTask
      simp only [hv, keys_sanitize, hfind, h1, h2, h3, hk]
      rfl
    rw [h403]
    simp
  · have hk : routePut isISO8601 w req
        = (w, { status := 400, errors := taskValidation isISO8601 req.body }) := by
      unfold routePut updateTask
      cases he : taskValidation isISO8601 req.body with
      | nil => exact absurd he hv
      | cons e es => rfl
    rw [hk]
    simp

/-- C25, evaluated where it fails: the manager sends the body `{priority: "high"}` and the
assignee the body `{status: "review"}` for `exTask`; the update route answers both with
400, because the validation asks for title, description and assignee, and the task is
unchanged. -/
theorem routePut_rejects_partial_bodies (isISO8601 : String → Bool) :
    taskValidation isISO8601 exManagerPriorityReq.body
      = ["Title is required", "Description is required", "Assignee is required",
         "Invalid assignee ID"] ∧
    (routePut isISO8601 exWorld exManagerPriorityReq).2.status = 400 ∧
    (routePut isISO8601 exWorld exManagerPriorityReq).1 = exWorld ∧
    exTask.assignedTo = exAssignee._id ∧
    exAssigneeStatusReq.body.keys = ["status"] ∧
    (routePut isISO8601 exWorld exAssigneeStatusReq).2.status = 400 ∧
    (routePut isISO8601 exWorld exAssigneeStatusReq).1 = exWorld := by
  refine ⟨rfl, rfl, rfl, by decide, by decide, rfl, rfl⟩

/-! ## The socket handlers -/

/-- C26, evaluated where it fails: the plain user `exStranger` may not set the status of
`exTask` (the status route answers 403 and changes nothing), yet the message
`updateTaskStatus` of their socket makes the server send `taskStatusUpdated` with that
task and the status `completed` to every connected socket, while the stored task is in
progress and no request has written it. -/
theorem socket_relays_unpersisted_status :
    (routePatchStatus exWorld exStrangerCompleteReq).2.status = 403 ∧
    (routePatchStatus exWorld exStrangerCompleteReq).1 = exWorld ∧
    (findById exWorld.tasks exTaskId).map (fun t => t.status) = some "in-progress" ∧
    exWorld.events = [] ∧
    (onMessage exServer exStrangerSocket
        (ClientMessage.updateTaskStatus exTaskId "completed")).2
      = [{ receiver := "s-stranger",
           event := ServerEvent.taskStatusUpdated exTaskId "completed" },
         { receiver := "s-assignee",
           event := ServerEvent.taskStatusUpdated exTaskId "completed" },
         { receiver := "s-manager",
           event := ServerEvent.taskStatusUpdated exTaskId "completed" }] := by
  decide

theorem taskRoom_injective {a b : String} (h : taskRoom a = taskRoom b) : a = b := by
  unfold taskRoom at h
  have h2 := congrArg String.data h
  simp only [String.data_append] at h2
  exact String.ext (List.append_cancel_left h2)

theorem mem_joinRoom (rooms : List (String × String)) (room sid : String)
    (m : String × String) :
    m ∈ joinRoom rooms room sid ↔ m ∈ rooms ∨ m = (room, sid) := by
  unfold joinRoom
  split
  · rename_i h
    have hmem : (room, sid) ∈ rooms := by simpa using h
    constructor
    · exact Or.inl
    · rintro (h | h)
      · exact h
      · rw [h]; exact hmem
  · simp

theorem mem_leaveRoom (rooms : List (String × String)) (room sid : String)
    (m : String × String) :
    m ∈ leaveRoom rooms room sid ↔ m ∈ rooms ∧ m ≠ (room, sid) := by
  unfold leaveRoom
  simp

/-- The membership of a session in the room of a task after a sequence of messages is
what the messages `joinTask` and `leaveTask` of that session for that task say. -/
theorem inRoom_runMessages (trace : List (Socket × ClientMessage)) :
    ∀ (srv : SocketServer) (sid taskId : String),
      inRoom (runMessages srv trace) (taskRoom taskId) sid
        = joinedGroup (inRoom srv (taskRoom taskId) sid) sid taskId trace := by
  induction trace with
  | nil => intro srv sid taskId; rfl
  | cons step rest ih =>
    intro srv sid taskId
    obtain ⟨sender, msg⟩ := step
    cases msg with
    | joinTask t =>
      simp only [runMessages, joinedGroup]
      rw [ih]
      congr 1
      simp only [onMessage, inRoom]
      by_cases hc : sender.id = sid ∧ t = taskId
      · obtain ⟨h1, h2⟩ := hc
        subst h1 h2
        have : (taskRoom t, sender.id) ∈ joinRoom srv.rooms (taskRoom t) sender.id :=
          (mem_joinRoom _ _ _ _).mpr (Or.inr rfl)
        simp [this]
      · have hne : (taskRoom taskId, sid) ≠ (taskRoom t, sender.id) := by
          intro h
          have h1 := congrArg Prod.fst h
          have h2 := congrArg Prod.snd h
          exact hc ⟨h2.symm, (taskRoom_injective h1).symm⟩
        have hcb : (sender.id == sid && t == taskId) = false := by
          by_cases h1 : sender.id = sid
          · by_cases h2 : t = taskId
            · exact absurd ⟨h1, h2⟩ hc
            · simp [h2]
          · simp [h1]
        rw [hcb]
        simp only [Bool.false_eq_true, if_false]
        rw [Bool.eq_iff_iff]
        simp only [List.contains_eq_any_beq, List.any_eq_true, beq_iff_eq]
        constructor
        · rintro ⟨m, hm, rfl⟩
          rcases (mem_joinRoom _ _ _ _).mp hm with h | h
          · exact ⟨_, h, rfl⟩
          · exact absurd h hne
        · rintro ⟨m, hm, rfl⟩
          exact ⟨_, (mem_joinRoom _ _ _ _).mpr (Or.inl hm), rfl⟩
    | leaveTask t =>
      simp only [runMessages, joinedGroup]
      rw [ih]
      congr 1
      simp only [onMessage, inRoom]
      by_cases hc : sender.id = sid ∧ t = taskId
      · obtain ⟨h1, h2⟩ := hc
        subst h1 h2
        have : (taskRoom t, sender.id) ∉ leaveRoom srv.rooms (taskRoom t) sender.id := by
          rw [mem_leaveRoom]
          exact fun h => h.2 rfl
        simp [this]
      · have hne : (taskRoom taskId, sid) ≠ (taskRoom t, sender.id) := by
          intro h
          have h1 := congrArg Prod.fst h
          have h2 := congrArg Prod.snd h
          exact hc ⟨h2.symm, (taskRoom_injective h1).symm⟩
        have hcb : (sender.id == sid && t == taskId) = false := by
          by_cases h1 : sender.id = sid
          · by_cases h2 : t = taskId
            · exact absurd ⟨h1, h2⟩ hc
            · simp [h2]
          · simp [h1]
        rw [hcb]
        simp only [Bool.false_eq_true, if_false]
        rw [Bool.eq_iff_iff]
        simp only [List.contains_eq_any_beq, List.any_eq_true, beq_iff_eq]
        constructor
        · rintro ⟨m, hm, rfl⟩
          exact ⟨_, ((mem_leaveRoom _ _ _ _).mp hm).1, rfl⟩
        · rintro ⟨m, hm, rfl⟩
          exact ⟨_, (mem_leaveRoom _ _ _ _).mpr ⟨hm, hne⟩, rfl⟩
    | updateTaskStatus t s =>
      simp only [runMessages, joinedGroup]
      rw [ih]
      rfl
    | typing t =>
      simp only [runMessages, joinedGroup]
      rw [ih]
      rfl
    | stopTyping t =>
      simp only [runMessages, joinedGroup]
      rw [ih]
      rfl

theorem receiver_toRoomEmit (srv : SocketServer) (sender : Socket) (room : String)
    (e : ServerEvent) (sid : String) :
    (∃ d ∈ toRoomEmit srv sender room e, d.receiver = sid) ↔
      (sid ≠ sender.id ∧ inRoom srv room sid = true) := by
  unfold toRoomEmit inRoom
  simp only [List.mem_map, List.mem_filter, Bool.and_eq_true, beq_iff_eq, bne_iff_ne,
    List.contains_eq_any_beq, List.any_eq_true]
  constructor
  · rintro ⟨d, ⟨m, ⟨hm, h1, h2⟩, rfl⟩, rfl⟩
    refine ⟨h2, m, hm, ?_⟩
    rw [← h1]
  · rintro ⟨hne, m, hm, rfl⟩
    exact ⟨_, ⟨_, ⟨hm, rfl, hne⟩, rfl⟩, rfl⟩

theorem nodup_joinRoom {rooms : List (String × String)} (room sid : String)
    (h : rooms.Nodup) : (joinRoom rooms room sid).Nodup := by
  unfold joinRoom
  split
  · exact h
  · rename_i hc
    have hmem : (room, sid) ∉ rooms := by simpa using hc
    rw [List.nodup_append]
    refine ⟨h, List.nodup_singleton _, ?_⟩
    intro a ha hb
    rw [List.mem_singleton] at hb
    rw [hb] at ha
    exact hmem ha

theorem nodup_runMessages (trace : List (Socket × ClientMessage)) :
    ∀ srv : SocketServer, srv.rooms.Nodup → (runMessages srv trace).rooms.Nodup := by
  induction trace with
  | nil => intro srv h; exact h
  | cons step rest ih =>
    intro srv h
    obtain ⟨sender, msg⟩ := step
    cases msg with
    | joinTask t => exact ih _ (nodup_joinRoom _ _ h)
    | leaveTask t => exact ih _ (List.Nodup.filter _ h)
    | updateTaskStatus t s => exact ih _ h
    | typing t => exact ih _ h
    | stopTyping t => exact ih _ h

theorem nodup_receivers (srv : SocketServer) (sender : Socket) (room : String)
    (e : ServerEvent) (h : srv.rooms.Nodup) :
    ((toRoomEmit srv sender room e).map (fun d => d.receiver)).Nodup := by
  unfold toRoomEmit
  rw [List.map_map]
  apply List.Nodup.map_on _ (List.Nodup.filter _ h)
  intro a ha b hb hab
  simp only [List.mem_filter, Bool.and_eq_true, beq_iff_eq] at ha hb
  have h1 : a.1 = b.1 := by rw [ha.2.1, hb.2.1]
  exact Prod.ext h1 hab

/-- C27: after any sequence of messages, a `typing` or `stopTyping` message of a session
for a task is delivered to a session exactly when that session is another one than the
sender and has joined the group of the task and not left it since; each such session
gets it once, as `userTyping` or `userStoppedTyping` with the name of the sender and the
task, and the message changes no membership. -/
theorem typing_reaches_the_group (srv : SocketServer) (trace : List (Socket × ClientMessage))
    (sender : Socket) (taskId sid : String) :
    ((∃ d ∈ (onMessage (runMessages srv trace) sender (ClientMessage.typing taskId)).2,
        d.receiver = sid) ↔
      (sid ≠ sender.id ∧
        joinedGroup (inRoom srv (taskRoom taskId) sid) sid taskId trace = true)) ∧
    ((∃ d ∈ (onMessage (runMessages srv trace) sender (ClientMessage.stopTyping taskId)).2,
        d.receiver = sid) ↔
      (sid ≠ sender.id ∧
        joinedGroup (inRoom srv (taskRoom taskId) sid) sid taskId trace = true)) ∧
    (∀ d ∈ (onMessage (runMessages srv trace) sender (ClientMessage.typing taskId)).2,
      d.event = ServerEvent.userTyping sender.userName taskId) ∧
    (∀ d ∈ (onMessage (runMessages srv trace) sender (ClientMessage.stopTyping taskId)).2,
      d.event = ServerEvent.userStoppedTyping sender.userName taskId) ∧
    (srv.rooms.Nodup →
      (((onMessage (runMessages srv trace) sender (ClientMessage.typing taskId)).2).map
        (fun d => d.receiver)).Nodup ∧
      (((onMessage (runMessages srv trace) sender (ClientMessage.stopTyping taskId)).2).map
        (fun d => d.receiver)).Nodup) ∧
    (onMessage (runMessages srv trace) sender (ClientMessage.typing taskId)).1
      = runMessages srv trace ∧
    (onMessage (runMessages srv trace) sender (ClientMessage.stopTyping taskId)).1
      = runMessages srv trace := by
  refine ⟨?_, ?_, ?_, ?_, ?_, rfl, rfl⟩
  · simp only [onMessage]
    rw [receiver_toRoomEmit, inRoom_runMessages]
  · simp only [onMessage]
    rw [receiver_toRoomEmit, inRoom_runMessages]
  · intro d hd
    simp only [onMessage, toRoomEmit, List.mem_map] at hd
    obtain ⟨m, _, rfl⟩ := hd
    rfl
  · intro d hd
    simp only [onMessage, toRoomEmit, List.mem_map] at hd
    obtain ⟨m, _, rfl⟩ := hd
    rfl
  · intro h
    exact ⟨nodup_receivers _ _ _ _ (nodup_runMessages trace srv h),
      nodup_receivers _ _ _ _ (nodup_runMessages trace srv h)⟩

/-- Witness of C27: the manager and the assignee join the group of a sample task and the
assignee leaves; a typing message of the stranger reaches the manager. -/
theorem typing_reaches_the_group_witness :
    ∃ d ∈ (onMessage (runMessages exServer exTrace) exStrangerSocket
        (ClientMessage.typing exTaskId)).2, d.receiver = "s-manager" :=
  (typing_reaches_the_group exServer exTrace exStrangerSocket exTaskId "s-manager").1.2
    (by decide)

/-- C28: the guard `authorize(...roles)` lets a request pass exactly when it has a user
whose role is in the list; it answers 401 when there is no user and 403 when the role of
the user is not in the list, and then does not let the request pass. -/
theorem authorize_passes_iff (roles : List String) (user : Option User) :
    (authorize roles user = none ↔ ∃ u, user = some u ∧ u.role ∈ roles) ∧
    (user = none → ∃ r, authorize roles user = some r ∧ r.status = 401) ∧
    (∀ u, user = some u → u.role ∉ roles →
      ∃ r, authorize roles user = some r ∧ r.status = 403) := by
  cases user with
  | none =>
    refine ⟨⟨fun h => ?_, fun ⟨u, h, _⟩ => (by cases h)⟩, fun _ => ⟨_, rfl, rfl⟩,
      fun u h => (by cases h)⟩
    simp [authorize] at h
  | some u =>
    by_cases hr : u.role ∈ roles
    · refine ⟨⟨fun _ => ⟨u, rfl, hr⟩, fun _ => ?_⟩, fun h => (by cases h),
        fun v hv hn => ?_⟩
      · simp [authorize, hr]
      · cases hv
        exact absurd hr hn
    · refine ⟨⟨fun h => ?_, fun ⟨v, hv, hm⟩ => ?_⟩, fun h => (by cases h),
        fun v _ _ => ?_⟩
      · simp [authorize, hr] at h
      · cases hv
        exact absurd hm hr
      · simp [authorize, hr]

/-- Witness of C28: the guard for managers refuses a plain user with 403 and a request
without a user with 401. -/
theorem authorize_passes_iff_witness :
    (∃ r, authorize ["manager"] (none : Option User) = some r ∧ r.status = 401) ∧
    (∃ r, authorize ["manager"] (some exAssignee) = some r ∧ r.status = 403) :=
  ⟨(authorize_passes_iff ["manager"] none).2.1 rfl,
   (authorize_passes_iff ["manager"] (some exAssignee)).2.2 exAssignee rfl (by decide)⟩

/-! ## The two status paths and the list of the client -/

/-- The documents stored by the two status paths have the same status, and the same
`completedAt` unless the task is completed already and is set to `completed` again. -/
theorem status_paths_agree_unless_recompleted (task : Task) (req : Req) (s : String)
    (hs : req.body.status = some s)
    (h : ¬ (s = "completed" ∧ task.status = "completed")) :
    (updatedTask task req).status = (statusUpdatedTask task s req.now).status ∧
    (updatedTask task req).completedAt = (statusUpdatedTask task s req.now).completedAt := by
  unfold updatedTask recomputeCompletedAt statusUpdatedTask
  rw [hs]
  by_cases hc : s = "completed"
  · subst hc
    have hp : task.status ≠ "completed" := fun hp => h ⟨rfl, hp⟩
    simp [hp, mergeAllowed, hs]
  · simp [hc, mergeAllowed, hs]

/-- C29, evaluated where it fails: the assignee sets the completed task `exDoneTask`,
completed at time 5, to `completed` at time 9.  Both paths answer 200 and store the status
`completed`; `updateTask` with the body `{status: "completed"}` keeps `completedAt` 5,
`updateTaskStatus` stores `completedAt` 9. -/
theorem status_paths_disagree_on_recompletion :
    exRecompleteReq.body.keys = ["status"] ∧
    (updateTask exWorld exRecompleteReq []).2.status = 200 ∧
    (updateTaskStatus exWorld exRecompleteReq).2.status = 200 ∧
    (findById (updateTask exWorld exRecompleteReq []).1.tasks exDoneTaskId).map
      (fun t => (t.status, t.completedAt)) = some ("completed", some 5) ∧
    (findById (updateTaskStatus exWorld exRecompleteReq).1.tasks exDoneTaskId).map
      (fun t => (t.status, t.completedAt)) = some ("completed", some 9) := by
  decide

theorem onTaskUpdated_ids (prev : List Task) (task : Task) :
    (onTaskUpdated prev task).map (fun t => t._id) = prev.map (fun t => t._id) := by
  unfold onTaskUpdated
  rw [List.map_map]
  apply List.map_congr_left
  intro t _
  by_cases h : t._id = task._id
  · simp [h]
  · simp [h]

theorem onTaskStatusUpdated_ids (prev : List Task) (taskId status : String) :
    (onTaskStatusUpdated prev taskId status).map (fun t => t._id)
      = prev.map (fun t => t._id) := by
  unfold onTaskStatusUpdated
  rw [List.map_map]
  apply List.map_congr_left
  intro t _
  by_cases h : t._id = taskId
  · simp [h]
  · simp [h]

/-- The handlers of `taskUpdated`, `taskStatusUpdated` and `taskDeleted` keep a list free
of duplicates, and so do the handler of `taskCreated` and the local creation for a task
whose id is not in the list. -/
theorem handlers_keep_NoDuplicateIds (prev : List Task) (h : NoDuplicateIds prev) :
    (∀ task, NoDuplicateIds (onTaskUpdated prev task)) ∧
    (∀ taskId status, NoDuplicateIds (onTaskStatusUpdated prev taskId status)) ∧
    (∀ taskId, NoDuplicateIds (onTaskDeleted prev taskId)) ∧
    (∀ task, task._id ∉ prev.map (fun t => t._id) →
      NoDuplicateIds (onTaskCreated prev task) ∧
        NoDuplicateIds (createTaskSuccess prev task)) := by
  unfold NoDuplicateIds at h ⊢
  refine ⟨fun task => ?_, fun taskId status => ?_, fun taskId => ?_, fun task hn => ?_⟩
  · rw [onTaskUpdated_ids]; exact h
  · rw [onTaskStatusUpdated_ids]; exact h
  · unfold onTaskDeleted
    exact (List.filter_sublist _).map _ |>.nodup h
  · unfold onTaskCreated createTaskSuccess
    simp only [List.map_cons, List.nodup_cons]
    exact ⟨⟨hn, h⟩, ⟨hn, h⟩⟩

/-- C30, evaluated where it fails: the client of the manager starts from the empty list,
which has no duplicates; the creation route answers its request with 201 and the created
task, and emits `taskCreated` with the same task.  After the local update for the answer
and the handler of the event, the list holds the task twice. -/
theorem client_list_duplicates_created_task (isISO8601 : String → Bool) :
    NoDuplicateIds [] ∧
    (routePost isISO8601 exWorld exCreateReq).2.status = 201 ∧
    (routePost isISO8601 exWorld exCreateReq).2.task = some exCreatedPlain ∧
    (routePost isISO8601 exWorld exCreateReq).1.events = [Event.taskCreated exCreatedPlain] ∧
    onEvent (createTaskSuccess [] exCreatedPlain) (Event.taskCreated exCreatedPlain)
      = [exCreatedPlain, exCreatedPlain] ∧
    ¬ NoDuplicateIds
      (onEvent (createTaskSuccess [] exCreatedPlain) (Event.taskCreated exCreatedPlain)) := by
  refine ⟨by decide, rfl, rfl, rfl, rfl, by decide⟩

end Collab
